import Mathlib

/-!
Verification development for the Rust-binding generator module
(src/rust_generator.rs of cpp_to_rust).

The Rust source is shallowly embedded: every function of
rust_generator.rs that the verified properties touch is translated into
an executable Lean definition of the same name.  Fallible Rust code
(functions returning Result) is modelled with the `Res` monad below;
Rust panics (assert!, unreachable!, panic!, unwrap on None, slice
overruns) are modelled by the `Res.panic` outcome so that "the run
aborts" is observable in the embedding.

Helpers that rust_generator.rs imports from sibling modules that are
not part of the sources (utils::WordIterator and the case operations,
cpp_method, rust_type, rust_info) are modelled from the specification;
each such definition carries a doc comment starting with
"Modelled from the spec:".  Hash containers are modelled by
insertion-ordered association lists; the verified properties do not
depend on iteration order.
-/

/-- Outcome of running a piece of embedded Rust code: normal value,
recoverable error (Rust `Err`), or run-aborting panic. -/
inductive Res (α : Type) where
  | ok : α → Res α
  | err : String → Res α
  | panic : String → Res α
deriving DecidableEq

def Res.bind {α β : Type} : Res α → (α → Res β) → Res β
  | .ok a, f => f a
  | .err e, _ => .err e
  | .panic p, _ => .panic p

instance : Monad Res where
  pure := Res.ok
  bind := Res.bind

/-- Rust `assert!`: panics when the condition fails. -/
def rassert (b : Bool) (msg : String) : Res Unit :=
  if b then .ok () else .panic msg

/-- Rust `Option::unwrap`: panics on `None`. -/
def runwrap {α : Type} (o : Option α) (msg : String) : Res α :=
  match o with
  | some a => .ok a
  | none => .panic msg

def Res.isOk {α : Type} : Res α → Bool
  | .ok _ => true
  | _ => false

def Res.isErr {α : Type} : Res α → Bool
  | .err _ => true
  | _ => false

theorem Res.bind_ok_iff {α β : Type} (r : Res α) (f : α → Res β) (b : β) :
    Res.bind r f = .ok b ↔ ∃ a, r = .ok a ∧ f a = .ok b := by
  cases r <;> simp [Res.bind]

theorem Res.pure_def {α : Type} (a : α) : (pure a : Res α) = .ok a := rfl

theorem Res.bind_def {α β : Type} (r : Res α) (f : α → Res β) :
    r >>= f = Res.bind r f := rfl

/-! ## Character primitives for the modelled word tokenizer -/

/-- Modelled from the spec: ASCII uppercase test used by the word
tokenizer of §4.1 ("tokenizes on case boundaries"); the tokenizer
itself lives in utils.rs, which is not among the sources. -/
def isUp (c : Char) : Bool :=
  match c with
  | 'A' | 'B' | 'C' | 'D' | 'E' | 'F' | 'G' | 'H' | 'I' | 'J' | 'K' | 'L' | 'M'
  | 'N' | 'O' | 'P' | 'Q' | 'R' | 'S' | 'T' | 'U' | 'V' | 'W' | 'X' | 'Y' | 'Z' => true
  | _ => false

/-- Modelled from the spec: ASCII lowercase test (complement of the
letter range used by `isUp`), used to decide which characters the
class-casing must capitalise. -/
def isLow (c : Char) : Bool :=
  match c with
  | 'a' | 'b' | 'c' | 'd' | 'e' | 'f' | 'g' | 'h' | 'i' | 'j' | 'k' | 'l' | 'm'
  | 'n' | 'o' | 'p' | 'q' | 'r' | 's' | 't' | 'u' | 'v' | 'w' | 'x' | 'y' | 'z' => true
  | _ => false

/-- Modelled from the spec: ASCII lower-casing of a character, used by
the snake-case re-join of §4.1. -/
def lowChar (c : Char) : Char :=
  match c with
  | 'A' => 'a' | 'B' => 'b' | 'C' => 'c' | 'D' => 'd' | 'E' => 'e' | 'F' => 'f'
  | 'G' => 'g' | 'H' => 'h' | 'I' => 'i' | 'J' => 'j' | 'K' => 'k' | 'L' => 'l'
  | 'M' => 'm' | 'N' => 'n' | 'O' => 'o' | 'P' => 'p' | 'Q' => 'q' | 'R' => 'r'
  | 'S' => 's' | 'T' => 't' | 'U' => 'u' | 'V' => 'v' | 'W' => 'w' | 'X' => 'x'
  | 'Y' => 'y' | 'Z' => 'z'
  | c => c

/-- Modelled from the spec: ASCII upper-casing of a character, used by
the class-case re-join of §4.1. -/
def upChar (c : Char) : Char :=
  match c with
  | 'a' => 'A' | 'b' => 'B' | 'c' => 'C' | 'd' => 'D' | 'e' => 'E' | 'f' => 'F'
  | 'g' => 'G' | 'h' => 'H' | 'i' => 'I' | 'j' => 'J' | 'k' => 'K' | 'l' => 'L'
  | 'm' => 'M' | 'n' => 'N' | 'o' => 'O' | 'p' => 'P' | 'q' => 'Q' | 'r' => 'R'
  | 's' => 'S' | 't' => 'T' | 'u' => 'U' | 'v' => 'V' | 'w' => 'W' | 'x' => 'X'
  | 'y' => 'Y' | 'z' => 'Z'
  | c => c

theorem isUp_lowChar (c : Char) : isUp (lowChar c) = false := by
  unfold lowChar
  split
  any_goals rfl
  unfold isUp
  split <;> simp_all

theorem lowChar_of_not_isUp (c : Char) (h : isUp c = false) : lowChar c = c := by
  unfold lowChar
  split
  any_goals (simp [isUp] at h)
  rfl

theorem lowChar_lowChar (c : Char) : lowChar (lowChar c) = lowChar c :=
  lowChar_of_not_isUp _ (isUp_lowChar c)

theorem upChar_of_not_isLow (c : Char) (h : isLow c = false) : upChar c = c := by
  unfold upChar
  split
  any_goals (simp [isLow] at h)
  rfl

theorem isLow_upChar (c : Char) : isLow (upChar c) = false := by
  unfold upChar
  split
  any_goals rfl
  unfold isLow
  split <;> simp_all

theorem upChar_upChar (c : Char) : upChar (upChar c) = upChar c :=
  upChar_of_not_isLow _ (isLow_upChar c)

theorem isUp_of_isLow (c : Char) (h : isLow c = true) : isUp c = false := by
  unfold isLow at h
  split at h <;> first | rfl | simp_all

theorem upChar_of_isUp (c : Char) (h : isUp c = true) : upChar c = c := by
  unfold isUp at h
  split at h <;> first | rfl | simp_all

theorem isUp_upChar_of_isUp (c : Char) (h : isUp c = true) : isUp (upChar c) = true := by
  rw [upChar_of_isUp c h]; exact h

/-! ## The modelled word tokenizer (utils::WordIterator) -/

/-- Modelled from the spec: the running state of the word tokenizer of
§4.1.  `cur` is the word being accumulated; a new word starts at every
uppercase character (the "case boundary" of the spec).  Digits and all
other non-uppercase characters extend the current word, which is the
behaviour the tests of rust_generator.rs pin down
("myFunc1" must snake-case to "my_func1"). -/
def tokenizeGo : List Char → List Char → List (List Char)
  | [], cur => [cur]
  | c :: rest, cur =>
      if isUp c then cur :: tokenizeGo rest [c] else tokenizeGo rest (cur ++ [c])

/-- Modelled from the spec: splits an identifier into words on case
boundaries (utils::WordIterator of §4.1; utils.rs is not among the
sources). -/
def tokenizeChars : List Char → List (List Char)
  | [] => []
  | c :: rest => tokenizeGo rest [c]

/-- Modelled from the spec: snake-case re-join of a word list
(utils::VecCaseOperations::to_snake_case): lower-case every word and
join with underscores. -/
def snakeJoin (ws : List (List Char)) : List Char :=
  match ws with
  | [] => []
  | [w] => w.map lowChar
  | w :: rest => w.map lowChar ++ '_' :: snakeJoin rest

/-- Modelled from the spec: class-casing of a single word: capitalise
the first character, keep the rest. -/
def classWord (w : List Char) : List Char :=
  match w with
  | [] => []
  | c :: rest => upChar c :: rest

/-- Modelled from the spec: class-case re-join of a word list
(utils::VecCaseOperations::to_class_case): capitalise each word and
concatenate. -/
def classJoin (ws : List (List Char)) : List Char :=
  match ws with
  | [] => []
  | w :: rest => classWord w ++ classJoin rest

/-- Mode of case conversion (rust_generator.rs, `enum Case`). -/
inductive Case where
  | Class
  | Snake
deriving DecidableEq

/-- Modelled from the spec: word-level body of
`remove_qt_prefix_and_convert_case`; the prefix test is the source's
own (parts[0] equal to "Q", "q" or "Qt", only when more than one word
is present). -/
def convertCaseCore (parts : List (List Char)) (case : Case) (removeQt : Bool) : List Char :=
  let parts :=
    if removeQt ∧ parts.length > 1 ∧
        (parts.headD [] = ['Q'] ∨ parts.headD [] = ['q'] ∨ parts.headD [] = ['Q', 't']) then
      parts.tail
    else
      parts
  match case with
  | .Snake => snakeJoin parts
  | .Class => classJoin parts

/-- Embedding of rust_generator.rs `remove_qt_prefix_and_convert_case`
(lines 30-41): tokenize, optionally drop a leading "Q"/"q"/"Qt" word,
re-join in the requested case.  The tokenizer and the case joins are
modelled from the spec (see above); the prefix-removal logic is the
source's. -/
def remove_qt_prefix_and_convert_case (s : String) (case : Case) (removeQt : Bool) : String :=
  String.mk (convertCaseCore (tokenizeChars s.toList) case removeQt)

/-- Modelled from the spec: `to_snake_case` on a single string
(utils::CaseOperations), used by the source for argument and method
names; same as the word-level snake join without prefix removal. -/
def toSnakeCaseS (s : String) : String :=
  String.mk (snakeJoin (tokenizeChars s.toList))

/-- Modelled from the spec: `to_class_case` on a single string
(utils::CaseOperations), used by the source for enum variant names and
trait names. -/
def toClassCaseS (s : String) : String :=
  String.mk (classJoin (tokenizeChars s.toList))

/-- Embedding of rust_generator.rs `include_file_to_module_name`
(lines 45-51): strip a trailing ".h", then snake-case with optional
Qt-prefix removal. -/
def include_file_to_module_name (include_file : String) (removeQt : Bool) : String :=
  let l := include_file.toList
  let l := if l.reverse.take 2 = ['h', '.'] then (l.reverse.drop 2).reverse else l
  remove_qt_prefix_and_convert_case (String.mk l) Case.Snake removeQt

/-- Embedding of rust_generator.rs `sanitize_rust_identifier`
(lines 55-67): append an underscore to Rust reserved words. -/
def sanitize_rust_identifier (name : String) : String :=
  let reserved : List String :=
    ["abstract", "alignof", "as", "become", "box", "break", "const",
     "continue", "crate", "do", "else", "enum", "extern", "false",
     "final", "fn", "for", "if", "impl", "in", "let", "loop",
     "macro", "match", "mod", "move", "mut", "offsetof", "override",
     "priv", "proc", "pub", "pure", "ref", "return", "Self", "self",
     "sizeof", "static", "struct", "super", "trait", "true", "type",
     "typeof", "unsafe", "unsized", "use", "virtual", "where", "while",
     "yield"]
  if reserved.contains name then name ++ "_" else name

/-! Sanity examples: the test suite embedded in rust_generator.rs
(`remove_qt_prefix_and_convert_case_test`, lines 919-936) holds of the
model. -/

example : remove_qt_prefix_and_convert_case "OneTwo" Case.Class false = "OneTwo" := by decide
example : remove_qt_prefix_and_convert_case "OneTwo" Case.Snake false = "one_two" := by decide
example : remove_qt_prefix_and_convert_case "OneTwo" Case.Class true = "OneTwo" := by decide
example : remove_qt_prefix_and_convert_case "OneTwo" Case.Snake true = "one_two" := by decide
example : remove_qt_prefix_and_convert_case "QDirIterator" Case.Class false = "QDirIterator" := by
  decide
example : remove_qt_prefix_and_convert_case "QDirIterator" Case.Snake false = "q_dir_iterator" := by
  decide
example : remove_qt_prefix_and_convert_case "QDirIterator" Case.Class true = "DirIterator" := by
  decide
example : remove_qt_prefix_and_convert_case "QDirIterator" Case.Snake true = "dir_iterator" := by
  decide

/-! ## Names and configuration -/

/-- Modelled from the spec: rust_type::RustName, an ordered list of
path segments (rust_type.rs is not among the sources; only the
segment list and last-segment accessor are used here). -/
structure RustName where
  parts : List String
deriving DecidableEq

/-- Modelled from the spec: RustName::last_name; the source unwraps,
so it is only ever called on non-empty names. -/
def RustName.lastName (n : RustName) : String :=
  n.parts.getLastD ""

/-- Embedding of rust_generator.rs `RustGeneratorConfig`
(lines 85-93).  The field `remove_qt_prefix_flag` embeds the source
field holding the Qt-prefix removal flag. -/
structure RustGeneratorConfig where
  crate_name : String
  module_blacklist : List String
  remove_qt_prefix_flag : Bool
deriving DecidableEq

/-- Splitter state for `splitOnNs`: accumulates the current segment
and flushes it at every "::" separator. -/
def splitNsGo : List Char → List Char → List (List Char)
  | [], cur => [cur]
  | ':' :: ':' :: rest, cur => cur :: splitNsGo rest []
  | c :: rest, cur => splitNsGo rest (cur ++ [c])

/-- Embedding of Rust `str::split("::")` as used by
`calculate_rust_name`: splits a qualified C++ name into its
namespace segments.  Total and never returns an empty list. -/
def splitOnNs (s : String) : List String :=
  (splitNsGo s.toList []).map String.mk

/-- Embedding of rust_generator.rs `calculate_rust_name`
(lines 117-146): split the qualified name on "::", convert the final
segment in the function/type case, push crate name, header-derived
module name and snake-cased namespace segments, remove index 2 once
when `parts.len() > 2 && parts[1] == parts[2]`, then append the final
segment. -/
def calculate_rust_name (name : String) (include_file : String) (is_function : Bool)
    (config : RustGeneratorConfig) : RustName :=
  let split_parts := splitOnNs name
  let last_raw := split_parts.getLastD ""
  let last_part := remove_qt_prefix_and_convert_case last_raw
    (if is_function then Case.Snake else Case.Class) config.remove_qt_prefix_flag
  let header_module := include_file_to_module_name include_file config.remove_qt_prefix_flag
  let ns_parts := split_parts.dropLast.map
    (fun p => remove_qt_prefix_and_convert_case p Case.Snake config.remove_qt_prefix_flag)
  let parts := config.crate_name :: header_module :: ns_parts
  let parts := if parts.length > 2 ∧ parts.get? 1 = parts.get? 2 then parts.eraseIdx 2 else parts
  RustName.mk (parts ++ [last_part])

/-! Sanity examples: the test suite embedded in rust_generator.rs
(`calculate_rust_name_test`, lines 955-976) holds of the model. -/

def qtTestConfig : RustGeneratorConfig :=
  { crate_name := "qt_core", module_blacklist := [], remove_qt_prefix_flag := true }

example : calculate_rust_name "myFunc1" "QtGlobal" true qtTestConfig =
    RustName.mk ["qt_core", "global", "my_func1"] := by decide
example : calculate_rust_name "QPointF" "QPointF" false qtTestConfig =
    RustName.mk ["qt_core", "point_f", "PointF"] := by decide
example : calculate_rust_name "QStringList::Iterator" "QStringList" false qtTestConfig =
    RustName.mk ["qt_core", "string_list", "Iterator"] := by decide
example : calculate_rust_name "QStringList::Iterator" "QString" false qtTestConfig =
    RustName.mk ["qt_core", "string", "string_list", "Iterator"] := by decide
example : calculate_rust_name "ns::func1" "QRect" true qtTestConfig =
    RustName.mk ["qt_core", "rect", "ns", "func1"] := by decide

/-! ## Structure of the tokenizer output (for the idempotence analysis) -/

/-- Every word except possibly the first one produced by the tokenizer
starts with an uppercase character and continues with non-uppercase
characters. -/
def headedWords (ws : List (List Char)) : Prop :=
  ∀ w ∈ ws, ∃ c t, w = c :: t ∧ isUp c = true ∧ ∀ x ∈ t, isUp x = false

theorem headedWords_nil : headedWords [] := by
  intro w hw; cases hw

theorem headedWords_cons {w : List Char} {ws : List (List Char)}
    (hw : ∃ c t, w = c :: t ∧ isUp c = true ∧ ∀ x ∈ t, isUp x = false)
    (hws : headedWords ws) : headedWords (w :: ws) := by
  intro v hv
  rcases List.mem_cons.mp hv with h | h
  · exact h ▸ hw
  · exact hws v h

theorem tokenizeGo_extend (t : List Char) (ht : ∀ x ∈ t, isUp x = false) :
    ∀ (rest cur : List Char), tokenizeGo (t ++ rest) cur = tokenizeGo rest (cur ++ t) := by
  induction t with
  | nil => intro rest cur; simp
  | cons c t ih =>
      intro rest cur
      have hc : isUp c = false := ht c (by simp)
      have ht' : ∀ x ∈ t, isUp x = false := fun x hx => ht x (by simp [hx])
      simp only [List.cons_append, tokenizeGo, hc, Bool.false_eq_true, if_false,
        List.append_eq]
      rw [ih ht' rest (cur ++ [c])]
      simp

theorem tokenizeGo_flatten (ws : List (List Char)) (hws : headedWords ws) :
    ∀ cur : List Char, tokenizeGo ws.flatten cur = cur :: ws := by
  induction ws with
  | nil => intro cur; simp [tokenizeGo]
  | cons w ws ih =>
      intro cur
      obtain ⟨c, t, rfl, hc, ht⟩ := hws w (by simp)
      have hws' : headedWords ws := fun v hv => hws v (by simp [hv])
      simp only [List.flatten_cons, List.cons_append, tokenizeGo, hc, if_true,
        List.append_eq]
      rw [tokenizeGo_extend t ht, ih hws']
      simp

theorem tokenizeGo_structure : ∀ (l cur : List Char), ∃ pre ws,
    tokenizeGo l cur = (cur ++ pre) :: ws ∧ (∀ x ∈ pre, isUp x = false) ∧ headedWords ws := by
  intro l
  induction l with
  | nil =>
      intro cur
      exact ⟨[], [], by simp [tokenizeGo], by simp, headedWords_nil⟩
  | cons c rest ih =>
      intro cur
      cases hc : isUp c with
      | true =>
          obtain ⟨pre, ws, he, hpre, hws⟩ := ih [c]
          refine ⟨[], (c :: pre) :: ws, ?_, by simp, ?_⟩
          · simp only [tokenizeGo, hc, if_true]
            rw [he]
            simp
          · exact headedWords_cons ⟨c, pre, rfl, hc, hpre⟩ hws
      | false =>
          obtain ⟨pre, ws, he, hpre, hws⟩ := ih (cur ++ [c])
          refine ⟨c :: pre, ws, ?_, ?_, hws⟩
          · simp only [tokenizeGo, hc, Bool.false_eq_true, if_false]
            rw [he]
            simp
          · intro x hx
            rcases List.mem_cons.mp hx with h | h
            · exact h ▸ hc
            · exact hpre x h

theorem tokenizeChars_structure (c : Char) (l : List Char) : ∃ pre ws,
    tokenizeChars (c :: l) = (c :: pre) :: ws ∧ (∀ x ∈ pre, isUp x = false) ∧ headedWords ws := by
  obtain ⟨pre, ws, he, hpre, hws⟩ := tokenizeGo_structure l [c]
  exact ⟨pre, ws, by simpa [tokenizeChars] using he, hpre, hws⟩

theorem tokenizeChars_of_notUp (c : Char) (l : List Char) (h : ∀ x ∈ l, isUp x = false) :
    tokenizeChars (c :: l) = [c :: l] := by
  have := tokenizeGo_extend l h [] [c]
  simp only [List.append_nil] at this
  simp only [tokenizeChars, this, tokenizeGo]
  simp

theorem classJoin_of_headed (ws : List (List Char)) (hws : headedWords ws) :
    classJoin ws = ws.flatten := by
  induction ws with
  | nil => rfl
  | cons w ws ih =>
      obtain ⟨c, t, rfl, hc, _⟩ := hws w (by simp)
      have hws' : headedWords ws := fun v hv => hws v (by simp [hv])
      simp only [classJoin, classWord, List.flatten_cons]
      rw [upChar_of_isUp c hc, ih hws']

theorem snakeJoin_chars : ∀ ws : List (List Char), ∀ c ∈ snakeJoin ws,
    isUp c = false ∧ lowChar c = c := by
  intro ws
  induction ws with
  | nil => intro c hc; cases hc
  | cons w rest ih =>
      intro c hc
      cases rest with
      | nil =>
          simp only [snakeJoin, List.mem_map] at hc
          obtain ⟨x, _, rfl⟩ := hc
          exact ⟨isUp_lowChar x, lowChar_lowChar x⟩
      | cons w2 rest2 =>
          simp only [snakeJoin, List.mem_append, List.mem_map, List.mem_cons] at hc
          rcases hc with ⟨x, _, rfl⟩ | h | h
          · exact ⟨isUp_lowChar x, lowChar_lowChar x⟩
          · subst h; exact ⟨rfl, rfl⟩
          · exact ih c h

theorem toList_mk (l : List Char) : (String.mk l).toList = l := rfl

theorem convertCaseCore_snake_eq (parts : List (List Char)) (flag : Bool) :
    ∃ ws, convertCaseCore parts Case.Snake flag = snakeJoin ws := by
  unfold convertCaseCore
  exact ⟨_, rfl⟩

theorem snake_idem_chars (ws : List (List Char)) (flag : Bool) :
    convertCaseCore (tokenizeChars (snakeJoin ws)) Case.Snake flag = snakeJoin ws := by
  cases h : snakeJoin ws with
  | nil => simp [tokenizeChars, convertCaseCore, snakeJoin]
  | cons c t =>
      have hall : ∀ x ∈ snakeJoin ws, isUp x = false ∧ lowChar x = x := snakeJoin_chars ws
      have htail : ∀ x ∈ t, isUp x = false := fun x hx =>
        (hall x (by rw [h]; exact List.mem_cons_of_mem _ hx)).1
      rw [tokenizeChars_of_notUp c t htail]
      unfold convertCaseCore
      simp only [List.length_cons, List.length_nil, gt_iff_lt]
      have hone : ¬(flag = true ∧ 0 + 1 > 1 ∧
          (([c :: t] : List (List Char)).headD [] = ['Q'] ∨
           ([c :: t] : List (List Char)).headD [] = ['q'] ∨
           ([c :: t] : List (List Char)).headD [] = ['Q', 't'])) := by
        rintro ⟨_, habs, _⟩
        omega
      rw [if_neg hone]
      show snakeJoin [c :: t] = c :: t
      have : (c :: t).map lowChar = c :: t := by
        apply List.map_congr_left ?_ |>.trans (List.map_id _)
        intro a ha
        exact (hall a (h ▸ ha)).2
      simpa [snakeJoin] using this

theorem convertCaseCore_class_noremove (parts : List (List Char)) :
    convertCaseCore parts Case.Class false = classJoin parts := by
  unfold convertCaseCore
  simp

theorem class_idem_chars (c : Char) (pre : List Char) (ws : List (List Char))
    (hpre : ∀ x ∈ pre, isUp x = false) (hws : headedWords ws) :
    convertCaseCore (tokenizeChars (classJoin ((c :: pre) :: ws))) Case.Class false
      = classJoin ((c :: pre) :: ws) := by
  have hj : classJoin ((c :: pre) :: ws) = upChar c :: (pre ++ ws.flatten) := by
    simp [classJoin, classWord, classJoin_of_headed ws hws]
  rw [hj]
  have ht : tokenizeChars (upChar c :: (pre ++ ws.flatten)) = (upChar c :: pre) :: ws := by
    simp only [tokenizeChars]
    rw [tokenizeGo_extend pre hpre, tokenizeGo_flatten ws hws]
    simp
  rw [ht, convertCaseCore_class_noremove]
  simp [classJoin, classWord, classJoin_of_headed ws hws, upChar_upChar]

/-- C9 is false as stated: with the class-case target and prefix
removal enabled, a first application of the transform can expose a
fresh "Qt" prefix which a second application then strips. -/
theorem c9_counterexample :
    remove_qt_prefix_and_convert_case
        (remove_qt_prefix_and_convert_case "QQtX" Case.Class true) Case.Class true
      ≠ remove_qt_prefix_and_convert_case "QQtX" Case.Class true := by
  decide

/-- C9 (amended): the identifier transform is idempotent for the
snake-case target with either value of the prefix-removal flag, and
for the class-case target when prefix removal is disabled; the
remaining combination (class case with prefix removal) is refuted by
`c9_counterexample`. -/
theorem c9_transform_idempotent :
    (∀ (s : String) (flag : Bool),
        remove_qt_prefix_and_convert_case
          (remove_qt_prefix_and_convert_case s Case.Snake flag) Case.Snake flag
          = remove_qt_prefix_and_convert_case s Case.Snake flag)
    ∧ (∀ s : String,
        remove_qt_prefix_and_convert_case
          (remove_qt_prefix_and_convert_case s Case.Class false) Case.Class false
          = remove_qt_prefix_and_convert_case s Case.Class false) := by
  constructor
  · intro s flag
    unfold remove_qt_prefix_and_convert_case
    rw [toList_mk]
    obtain ⟨ws, hws⟩ := convertCaseCore_snake_eq (tokenizeChars s.toList) flag
    rw [hws, snake_idem_chars]
  · intro s
    unfold remove_qt_prefix_and_convert_case
    rw [toList_mk]
    cases hl : s.toList with
    | nil => simp [tokenizeChars, convertCaseCore, classJoin]
    | cons c l =>
        obtain ⟨pre, ws, he, hpre, hws⟩ := tokenizeChars_structure c l
        rw [he]
        rw [convertCaseCore_class_noremove]
        exact congrArg String.mk (class_idem_chars c pre ws hpre hws)

/-- C7: for a qualified name with at least one namespace segment, the
header-derived module segment is followed by the snake-cased namespace
segments; when the header segment equals the first namespace segment
the duplicate is dropped exactly once, otherwise both segments are
retained. -/
theorem c7_path_collapse (name include_file : String) (is_function : Bool)
    (config : RustGeneratorConfig)
    (h : 2 ≤ (splitOnNs name).length) :
    (calculate_rust_name name include_file is_function config).parts =
      (let split_parts := splitOnNs name
       let header_module :=
         include_file_to_module_name include_file config.remove_qt_prefix_flag
       let ns_parts := split_parts.dropLast.map
         (fun p => remove_qt_prefix_and_convert_case p Case.Snake config.remove_qt_prefix_flag)
       let last_part := remove_qt_prefix_and_convert_case (split_parts.getLastD "")
         (if is_function then Case.Snake else Case.Class) config.remove_qt_prefix_flag
       if header_module = ns_parts.headD "" then
         config.crate_name :: header_module :: ns_parts.tail ++ [last_part]
       else
         config.crate_name :: header_module :: ns_parts ++ [last_part]) := by
  unfold calculate_rust_name
  have hlen : 1 ≤ (splitOnNs name).dropLast.length := by
    rw [List.length_dropLast]
    omega
  cases hns : (splitOnNs name).dropLast.map
      (fun p => remove_qt_prefix_and_convert_case p Case.Snake config.remove_qt_prefix_flag) with
  | nil =>
      exfalso
      have := congrArg List.length hns
      simp at this
      omega
  | cons n0 rest =>
      simp only [hns]
      by_cases hc :
          include_file_to_module_name include_file config.remove_qt_prefix_flag = n0
      · have h1 : (config.crate_name ::
              include_file_to_module_name include_file config.remove_qt_prefix_flag ::
              n0 :: rest).length > 2 ∧
            (config.crate_name ::
              include_file_to_module_name include_file config.remove_qt_prefix_flag ::
              n0 :: rest).get? 1 =
            (config.crate_name ::
              include_file_to_module_name include_file config.remove_qt_prefix_flag ::
              n0 :: rest).get? 2 := by
          refine ⟨by simp, ?_⟩
          simp [List.get?, hc]
        rw [if_pos h1]
        simp only [List.headD_cons, List.tail_cons]
        rw [if_pos hc]
        simp [List.eraseIdx]
      · have h1 : ¬((config.crate_name ::
              include_file_to_module_name include_file config.remove_qt_prefix_flag ::
              n0 :: rest).length > 2 ∧
            (config.crate_name ::
              include_file_to_module_name include_file config.remove_qt_prefix_flag ::
              n0 :: rest).get? 1 =
            (config.crate_name ::
              include_file_to_module_name include_file config.remove_qt_prefix_flag ::
              n0 :: rest).get? 2) := by
          rintro ⟨-, habs⟩
          simp [List.get?] at habs
          exact hc habs
        rw [if_neg h1]
        simp only [List.headD_cons]
        rw [if_neg hc]

/-! ## The C++ type model (cpp_type.rs, modelled from usage and spec) -/

/-- Modelled from the spec: cpp_type::CppTypeIndirection (the
pointer/reference wrapping level of a type; §Glossary). -/
inductive CppTypeIndirection where
  | None | Ptr | PtrPtr | Ref | PtrRef | RefRef
deriving DecidableEq

/-- Modelled from the spec: cpp_type::CppBuiltInNumericType; the
kinds beyond Double exercise the source's "unsupported numeric type"
error arm. -/
inductive CppBuiltInNumericType where
  | Bool | Char | SChar | UChar | WChar | Short | UShort | Int | UInt
  | Long | ULong | LongLong | ULongLong | Float | Double
  | Char16 | Char32 | LongDouble
deriving DecidableEq

/-- Modelled from the spec: cpp_type::CppSpecificNumericTypeKind. -/
inductive CppSpecificNumericTypeKind where
  | Integer (is_signed : Bool)
  | FloatingPoint
deriving DecidableEq

mutual
/-- Modelled from the spec: cpp_type::CppTypeBase, the closed sum of
C++ base type kinds consumed by the type mapper (§4.3). -/
inductive CppTypeBase where
  | Void : CppTypeBase
  | BuiltInNumeric : CppBuiltInNumericType → CppTypeBase
  | SpecificNumeric : String → Nat → CppSpecificNumericTypeKind → CppTypeBase
  | PointerSizedInteger : String → Bool → CppTypeBase
  | Enum : String → CppTypeBase
  | Class : String → Option (List CppType) → CppTypeBase
  | FunctionPointer : CppType → List CppType → Bool → CppTypeBase
  | TemplateParameter : Nat → Nat → CppTypeBase

/-- Modelled from the spec: cpp_type::CppType
{is_const, indirection, base}. -/
inductive CppType where
  | mk : Bool → CppTypeIndirection → CppTypeBase → CppType
end

def CppType.is_const : CppType → Bool
  | .mk c _ _ => c

def CppType.indirection : CppType → CppTypeIndirection
  | .mk _ i _ => i

def CppType.base : CppType → CppTypeBase
  | .mk _ _ b => b

/-- Modelled from the spec: CppType::void(). -/
def CppType.void : CppType :=
  .mk false .None .Void

mutual
def CppType.beq : CppType → CppType → Bool
  | .mk c1 i1 b1, .mk c2 i2 b2 => c1 == c2 && i1 == i2 && CppTypeBase.beq b1 b2

def CppTypeBase.beq : CppTypeBase → CppTypeBase → Bool
  | .Void, .Void => true
  | .BuiltInNumeric a, .BuiltInNumeric b => a == b
  | .SpecificNumeric n1 b1 k1, .SpecificNumeric n2 b2 k2 => n1 == n2 && b1 == b2 && k1 == k2
  | .PointerSizedInteger n1 s1, .PointerSizedInteger n2 s2 => n1 == n2 && s1 == s2
  | .Enum a, .Enum b => a == b
  | .Class n1 none, .Class n2 none => n1 == n2
  | .Class n1 (some l1), .Class n2 (some l2) => n1 == n2 && CppType.beqList l1 l2
  | .FunctionPointer r1 a1 v1, .FunctionPointer r2 a2 v2 =>
      CppType.beq r1 r2 && CppType.beqList a1 a2 && v1 == v2
  | .TemplateParameter l1 x1, .TemplateParameter l2 x2 => l1 == l2 && x1 == x2
  | _, _ => false

def CppType.beqList : List CppType → List CppType → Bool
  | [], [] => true
  | x :: xs, y :: ys => CppType.beq x y && CppType.beqList xs ys
  | _, _ => false
end

mutual
theorem CppType.eq_of_beq_ct : ∀ a b : CppType, CppType.beq a b = true → a = b
  | .mk c1 i1 b1, .mk c2 i2 b2, h => by
      simp only [CppType.beq, Bool.and_eq_true, beq_iff_eq] at h
      obtain ⟨⟨h1, h2⟩, h3⟩ := h
      subst h1; subst h2
      rw [CppTypeBase.eq_of_beq_ctb b1 b2 h3]

theorem CppTypeBase.eq_of_beq_ctb : ∀ a b : CppTypeBase, CppTypeBase.beq a b = true → a = b
  | .Void, .Void, _ => rfl
  | .BuiltInNumeric a, .BuiltInNumeric b, h => by
      simp only [CppTypeBase.beq, beq_iff_eq] at h; rw [h]
  | .SpecificNumeric n1 b1 k1, .SpecificNumeric n2 b2 k2, h => by
      simp only [CppTypeBase.beq, Bool.and_eq_true, beq_iff_eq] at h
      obtain ⟨⟨h1, h2⟩, h3⟩ := h
      rw [h1, h2, h3]
  | .PointerSizedInteger n1 s1, .PointerSizedInteger n2 s2, h => by
      simp only [CppTypeBase.beq, Bool.and_eq_true, beq_iff_eq] at h
      obtain ⟨h1, h2⟩ := h
      rw [h1, h2]
  | .Enum a, .Enum b, h => by
      simp only [CppTypeBase.beq, beq_iff_eq] at h; rw [h]
  | .Class n1 none, .Class n2 none, h => by
      simp only [CppTypeBase.beq, beq_iff_eq] at h; rw [h]
  | .Class n1 (some l1), .Class n2 (some l2), h => by
      simp only [CppTypeBase.beq, Bool.and_eq_true, beq_iff_eq] at h
      obtain ⟨h1, h2⟩ := h
      rw [h1, CppType.eqList_of_beqList_ct l1 l2 h2]
  | .FunctionPointer r1 a1 v1, .FunctionPointer r2 a2 v2, h => by
      simp only [CppTypeBase.beq, Bool.and_eq_true, beq_iff_eq] at h
      obtain ⟨⟨h1, h2⟩, h3⟩ := h
      rw [CppType.eq_of_beq_ct r1 r2 h1, CppType.eqList_of_beqList_ct a1 a2 h2, h3]
  | .TemplateParameter l1 x1, .TemplateParameter l2 x2, h => by
      simp only [CppTypeBase.beq, Bool.and_eq_true, beq_iff_eq] at h
      obtain ⟨h1, h2⟩ := h
      rw [h1, h2]
  | .Void, .BuiltInNumeric _, h => Bool.noConfusion h
  | .Void, .SpecificNumeric _ _ _, h => Bool.noConfusion h
  | .Void, .PointerSizedInteger _ _, h => Bool.noConfusion h
  | .Void, .Enum _, h => Bool.noConfusion h
  | .Void, .Class _ _, h => Bool.noConfusion h
  | .Void, .FunctionPointer _ _ _, h => Bool.noConfusion h
  | .Void, .TemplateParameter _ _, h => Bool.noConfusion h
  | .BuiltInNumeric _, .Void, h => Bool.noConfusion h
  | .BuiltInNumeric _, .SpecificNumeric _ _ _, h => Bool.noConfusion h
  | .BuiltInNumeric _, .PointerSizedInteger _ _, h => Bool.noConfusion h
  | .BuiltInNumeric _, .Enum _, h => Bool.noConfusion h
  | .BuiltInNumeric _, .Class _ _, h => Bool.noConfusion h
  | .BuiltInNumeric _, .FunctionPointer _ _ _, h => Bool.noConfusion h
  | .BuiltInNumeric _, .TemplateParameter _ _, h => Bool.noConfusion h
  | .SpecificNumeric _ _ _, .Void, h => Bool.noConfusion h
  | .SpecificNumeric _ _ _, .BuiltInNumeric _, h => Bool.noConfusion h
  | .SpecificNumeric _ _ _, .PointerSizedInteger _ _, h => Bool.noConfusion h
  | .SpecificNumeric _ _ _, .Enum _, h => Bool.noConfusion h
  | .SpecificNumeric _ _ _, .Class _ _, h => Bool.noConfusion h
  | .SpecificNumeric _ _ _, .FunctionPointer _ _ _, h => Bool.noConfusion h
  | .SpecificNumeric _ _ _, .TemplateParameter _ _, h => Bool.noConfusion h
  | .PointerSizedInteger _ _, .Void, h => Bool.noConfusion h
  | .PointerSizedInteger _ _, .BuiltInNumeric _, h => Bool.noConfusion h
  | .PointerSizedInteger _ _, .SpecificNumeric _ _ _, h => Bool.noConfusion h
  | .PointerSizedInteger _ _, .Enum _, h => Bool.noConfusion h
  | .PointerSizedInteger _ _, .Class _ _, h => Bool.noConfusion h
  | .PointerSizedInteger _ _, .FunctionPointer _ _ _, h => Bool.noConfusion h
  | .PointerSizedInteger _ _, .TemplateParameter _ _, h => Bool.noConfusion h
  | .Enum _, .Void, h => Bool.noConfusion h
  | .Enum _, .BuiltInNumeric _, h => Bool.noConfusion h
  | .Enum _, .SpecificNumeric _ _ _, h => Bool.noConfusion h
  | .Enum _, .PointerSizedInteger _ _, h => Bool.noConfusion h
  | .Enum _, .Class _ _, h => Bool.noConfusion h
  | .Enum _, .FunctionPointer _ _ _, h => Bool.noConfusion h
  | .Enum _, .TemplateParameter _ _, h => Bool.noConfusion h
  | .Class _ none, .Void, h => Bool.noConfusion h
  | .Class _ (some _), .Void, h => Bool.noConfusion h
  | .Class _ none, .BuiltInNumeric _, h => Bool.noConfusion h
  | .Class _ (some _), .BuiltInNumeric _, h => Bool.noConfusion h
  | .Class _ none, .SpecificNumeric _ _ _, h => Bool.noConfusion h
  | .Class _ (some _), .SpecificNumeric _ _ _, h => Bool.noConfusion h
  | .Class _ none, .PointerSizedInteger _ _, h => Bool.noConfusion h
  | .Class _ (some _), .PointerSizedInteger _ _, h => Bool.noConfusion h
  | .Class _ none, .Enum _, h => Bool.noConfusion h
  | .Class _ (some _), .Enum _, h => Bool.noConfusion h
  | .Class _ none, .Class _ (some _), h => Bool.noConfusion h
  | .Class _ (some _), .Class _ none, h => Bool.noConfusion h
  | .Class _ none, .FunctionPointer _ _ _, h => Bool.noConfusion h
  | .Class _ (some _), .FunctionPointer _ _ _, h => Bool.noConfusion h
  | .Class _ none, .TemplateParameter _ _, h => Bool.noConfusion h
  | .Class _ (some _), .TemplateParameter _ _, h => Bool.noConfusion h
  | .FunctionPointer _ _ _, .Void, h => Bool.noConfusion h
  | .FunctionPointer _ _ _, .BuiltInNumeric _, h => Bool.noConfusion h
  | .FunctionPointer _ _ _, .SpecificNumeric _ _ _, h => Bool.noConfusion h
  | .FunctionPointer _ _ _, .PointerSizedInteger _ _, h => Bool.noConfusion h
  | .FunctionPointer _ _ _, .Enum _, h => Bool.noConfusion h
  | .FunctionPointer _ _ _, .Class _ _, h => Bool.noConfusion h
  | .FunctionPointer _ _ _, .TemplateParameter _ _, h => Bool.noConfusion h
  | .TemplateParameter _ _, .Void, h => Bool.noConfusion h
  | .TemplateParameter _ _, .BuiltInNumeric _, h => Bool.noConfusion h
  | .TemplateParameter _ _, .SpecificNumeric _ _ _, h => Bool.noConfusion h
  | .TemplateParameter _ _, .PointerSizedInteger _ _, h => Bool.noConfusion h
  | .TemplateParameter _ _, .Enum _, h => Bool.noConfusion h
  | .TemplateParameter _ _, .Class _ _, h => Bool.noConfusion h
  | .TemplateParameter _ _, .FunctionPointer _ _ _, h => Bool.noConfusion h

theorem CppType.eqList_of_beqList_ct : ∀ a b : List CppType, CppType.beqList a b = true → a = b
  | [], [], _ => rfl
  | x :: xs, y :: ys, h => by
      simp only [CppType.beqList, Bool.and_eq_true] at h
      obtain ⟨h1, h2⟩ := h
      rw [CppType.eq_of_beq_ct x y h1, CppType.eqList_of_beqList_ct xs ys h2]
  | [], _ :: _, h => Bool.noConfusion h
  | _ :: _, [], h => Bool.noConfusion h
end

mutual
theorem CppType.beq_refl_ct : ∀ a : CppType, CppType.beq a a = true
  | .mk c i b => by simp [CppType.beq, CppTypeBase.beq_refl_ctb b]

theorem CppTypeBase.beq_refl_ctb : ∀ a : CppTypeBase, CppTypeBase.beq a a = true
  | .Void => rfl
  | .BuiltInNumeric a => by simp [CppTypeBase.beq]
  | .SpecificNumeric n b k => by simp [CppTypeBase.beq]
  | .PointerSizedInteger n s => by simp [CppTypeBase.beq]
  | .Enum a => by simp [CppTypeBase.beq]
  | .Class n none => by simp [CppTypeBase.beq]
  | .Class n (some l) => by simp [CppTypeBase.beq, CppType.beqList_refl_ct l]
  | .FunctionPointer r a v => by
      simp [CppTypeBase.beq, CppType.beq_refl_ct r, CppType.beqList_refl_ct a]
  | .TemplateParameter l x => by simp [CppTypeBase.beq]

theorem CppType.beqList_refl_ct : ∀ a : List CppType, CppType.beqList a a = true
  | [] => rfl
  | x :: xs => by simp [CppType.beqList, CppType.beq_refl_ct x, CppType.beqList_refl_ct xs]
end

instance : BEq CppType := ⟨CppType.beq⟩

instance : LawfulBEq CppType where
  eq_of_beq := fun h => CppType.eq_of_beq_ct _ _ h
  rfl := CppType.beq_refl_ct _

instance : DecidableEq CppType := fun a b => decidable_of_iff _ beq_iff_eq

instance : DecidableEq CppTypeBase := fun a b =>
  decidable_of_iff (CppTypeBase.beq a b = true)
    ⟨CppTypeBase.eq_of_beq_ctb a b, fun h => h ▸ CppTypeBase.beq_refl_ctb a⟩

/-! ## The Rust type model (rust_type.rs, modelled from usage and spec) -/

/-- Modelled from the spec: rust_type::RustTypeIndirection. -/
inductive RustTypeIndirection where
  | None | Ptr | PtrPtr
  | Ref (lifetime : Option String)
deriving DecidableEq

/-- Modelled from the spec: cpp_ffi_data::IndirectionChange, the
precomputed per-argument indirection-change classification of the FFI
ABI layer (§1, §4.3). -/
inductive IndirectionChange where
  | NoChange | ValueToPointer | ReferenceToPointer | QFlagsToUInt
deriving DecidableEq

/-- Modelled from the spec: rust_type::RustToCTypeConversion, the
conversion tag of a CompleteType (§3). -/
inductive RustToCTypeConversion where
  | None | RefToPtr | ValueToPtr | QFlagsToUInt
deriving DecidableEq

/-- Modelled from the spec: rust_type::RustType (the target-language
type of §4.3: common named type with indirection, void, or function
pointer). -/
inductive RustType where
  | Void : RustType
  | Common : RustName → Option (List RustType) → Bool → RustTypeIndirection → RustType
  | FunctionPointer : RustType → List RustType → RustType

mutual
def RustType.beq : RustType → RustType → Bool
  | .Void, .Void => true
  | .Common b1 none c1 i1, .Common b2 none c2 i2 => b1 == b2 && c1 == c2 && i1 == i2
  | .Common b1 (some g1) c1 i1, .Common b2 (some g2) c2 i2 =>
      b1 == b2 && RustType.beqList g1 g2 && c1 == c2 && i1 == i2
  | .FunctionPointer r1 a1, .FunctionPointer r2 a2 =>
      RustType.beq r1 r2 && RustType.beqList a1 a2
  | _, _ => false

def RustType.beqList : List RustType → List RustType → Bool
  | [], [] => true
  | x :: xs, y :: ys => RustType.beq x y && RustType.beqList xs ys
  | _, _ => false
end

mutual
theorem RustType.eq_of_beq_rt : ∀ a b : RustType, RustType.beq a b = true → a = b
  | .Void, .Void, _ => rfl
  | .Common b1 none c1 i1, .Common b2 none c2 i2, h => by
      simp only [RustType.beq, Bool.and_eq_true, beq_iff_eq] at h
      obtain ⟨⟨h1, h2⟩, h3⟩ := h
      rw [h1, h2, h3]
  | .Common b1 (some g1) c1 i1, .Common b2 (some g2) c2 i2, h => by
      simp only [RustType.beq, Bool.and_eq_true, beq_iff_eq] at h
      obtain ⟨⟨⟨h1, h2⟩, h3⟩, h4⟩ := h
      rw [h1, h3, h4, RustType.eqList_of_beqList_rt g1 g2 h2]
  | .FunctionPointer r1 a1, .FunctionPointer r2 a2, h => by
      simp only [RustType.beq, Bool.and_eq_true] at h
      obtain ⟨h1, h2⟩ := h
      rw [RustType.eq_of_beq_rt r1 r2 h1, RustType.eqList_of_beqList_rt a1 a2 h2]
  | .Void, .Common _ none _ _, h => Bool.noConfusion h
  | .Void, .Common _ (some _) _ _, h => Bool.noConfusion h
  | .Void, .FunctionPointer _ _, h => Bool.noConfusion h
  | .Common _ none _ _, .Void, h => Bool.noConfusion h
  | .Common _ (some _) _ _, .Void, h => Bool.noConfusion h
  | .Common _ none _ _, .Common _ (some _) _ _, h => Bool.noConfusion h
  | .Common _ (some _) _ _, .Common _ none _ _, h => Bool.noConfusion h
  | .Common _ none _ _, .FunctionPointer _ _, h => Bool.noConfusion h
  | .Common _ (some _) _ _, .FunctionPointer _ _, h => Bool.noConfusion h
  | .FunctionPointer _ _, .Void, h => Bool.noConfusion h
  | .FunctionPointer _ _, .Common _ none _ _, h => Bool.noConfusion h
  | .FunctionPointer _ _, .Common _ (some _) _ _, h => Bool.noConfusion h

theorem RustType.eqList_of_beqList_rt : ∀ a b : List RustType, RustType.beqList a b = true → a = b
  | [], [], _ => rfl
  | x :: xs, y :: ys, h => by
      simp only [RustType.beqList, Bool.and_eq_true] at h
      obtain ⟨h1, h2⟩ := h
      rw [RustType.eq_of_beq_rt x y h1, RustType.eqList_of_beqList_rt xs ys h2]
  | [], _ :: _, h => Bool.noConfusion h
  | _ :: _, [], h => Bool.noConfusion h
end

mutual
theorem RustType.beq_refl_rt : ∀ a : RustType, RustType.beq a a = true
  | .Void => rfl
  | .Common b none c i => by simp [RustType.beq]
  | .Common b (some g) c i => by simp [RustType.beq, RustType.beqList_refl_rt g]
  | .FunctionPointer r a => by
      simp [RustType.beq, RustType.beq_refl_rt r, RustType.beqList_refl_rt a]

theorem RustType.beqList_refl_rt : ∀ a : List RustType, RustType.beqList a a = true
  | [] => rfl
  | x :: xs => by simp [RustType.beqList, RustType.beq_refl_rt x, RustType.beqList_refl_rt xs]
end

instance : BEq RustType := ⟨RustType.beq⟩

instance : LawfulBEq RustType where
  eq_of_beq := fun h => RustType.eq_of_beq_rt _ _ h
  rfl := RustType.beq_refl_rt _

instance : DecidableEq RustType := fun a b => decidable_of_iff _ beq_iff_eq

/-! ## FFI data model (cpp_ffi_data.rs / cpp_method.rs, modelled) -/

/-- Modelled from the spec: cpp_ffi_data::CppFfiType — the original
C++ type, its FFI-compatible rewriting and the indirection-change
classification connecting them (§4.3). -/
structure CppFfiType where
  original_type : CppType
  ffi_type : CppType
  conversion : IndirectionChange
deriving DecidableEq

/-- Modelled from the spec: CppFfiType::void(). -/
def CppFfiType.void : CppFfiType :=
  { original_type := CppType.void, ffi_type := CppType.void,
    conversion := IndirectionChange.NoChange }

/-- Modelled from the spec: cpp_ffi_data::CppFfiArgumentMeaning — a
FFI argument is the receiver, a numbered real argument, or carries the
return value (§4.4). -/
inductive CppFfiArgumentMeaning where
  | This
  | Argument (index : Nat)
  | ReturnValue
deriving DecidableEq

/-- Modelled from the spec: an argument of the C signature of an FFI
method (cpp_ffi_data.rs). -/
structure CppFfiFunctionArgument where
  name : String
  argument_type : CppFfiType
  meaning : CppFfiArgumentMeaning
deriving DecidableEq

/-- Modelled from the spec: the C signature of an FFI method
(cpp_ffi_data.rs). -/
structure CppFfiFunctionSignature where
  arguments : List CppFfiFunctionArgument
  return_type : CppFfiType
deriving DecidableEq

/-- Modelled from the spec: the kind of a class member method
(cpp_method.rs): constructor, destructor, or a regular method. -/
inductive CppMethodKind where
  | Constructor
  | Destructor
  | Regular
deriving DecidableEq

/-- Modelled from the spec: class membership of a method
(cpp_method.rs): the owning class and the member kind. -/
structure CppMethodClassMembership where
  class_name : String
  kind : CppMethodKind
deriving DecidableEq

/-- Modelled from the spec: cpp_method::CppMethod, restricted to the
fields rust_generator.rs reads: the C++ name, the optional class
membership, and whether the method is an operator. -/
structure CppMethod where
  name : String
  class_membership : Option CppMethodClassMembership
  operator_flag : Bool
deriving DecidableEq

/-- Modelled from the spec: CppMethod::is_destructor — true exactly
when the method's class membership records a destructor; a method
without class membership is never a destructor. -/
def CppMethod.is_destructor (m : CppMethod) : Bool :=
  match m.class_membership with
  | some mem => mem.kind == CppMethodKind.Destructor
  | none => false

/-- Modelled from the spec: CppMethod::is_constructor. -/
def CppMethod.is_constructor (m : CppMethod) : Bool :=
  match m.class_membership with
  | some mem => mem.kind == CppMethodKind.Constructor
  | none => false

/-- Modelled from the spec: CppMethod::is_operator. -/
def CppMethod.is_operator (m : CppMethod) : Bool :=
  m.operator_flag

/-- Modelled from the spec: CppMethod::class_name. -/
def CppMethod.className (m : CppMethod) : Option String :=
  m.class_membership.map (fun mem => mem.class_name)

/-- Modelled from the spec: CppMethod::short_text, used only in log
messages. -/
def CppMethod.short_text (m : CppMethod) : String :=
  m.name

/-- Embedding of cpp_method::ReturnValueAllocationPlace (§Glossary
"allocation place"). -/
inductive ReturnValueAllocationPlace where
  | Stack
  | Heap
  | NotApplicable
deriving DecidableEq

/-- Modelled from the spec: cpp_ffi_data::CppAndFfiMethod, restricted
to the fields rust_generator.rs reads. -/
structure CppAndFfiMethod where
  cpp_method : CppMethod
  allocation_place : ReturnValueAllocationPlace
  c_signature : CppFfiFunctionSignature
  c_name : String
deriving DecidableEq

/-- Modelled from the spec: CppAndFfiMethod::short_text. -/
def CppAndFfiMethod.short_text (m : CppAndFfiMethod) : String :=
  m.cpp_method.short_text

/-- Embedding of cpp_ffi_generator::CppFfiHeaderData: an include file
and its ordered method list (§6 Input). -/
structure CppFfiHeaderData where
  include_file : String
  methods : List CppAndFfiMethod
deriving DecidableEq

/-- Embedding of cpp_data::EnumValue. -/
structure EnumValue where
  name : String
  value : Int
deriving DecidableEq

/-- Embedding of cpp_data::CppTypeKind: an enum with values, or a
class with an optional size. -/
inductive CppTypeKind where
  | Enum (values : List EnumValue)
  | Class (size : Option Nat)
deriving DecidableEq

/-- Embedding of cpp_data::CppTypeData. -/
structure CppTypeData where
  name : String
  include_file : String
  kind : CppTypeKind
deriving DecidableEq

/-- Embedding of cpp_data::CppData restricted to the fields
rust_generator.rs reads: the flat type list and the
template-instantiation index (§6 Input). -/
structure CppData where
  types : List CppTypeData
  template_instantiations : List (String × List (List CppType))
deriving DecidableEq

/-- Embedding of cpp_ffi_generator::CppAndFfiData. -/
structure CppAndFfiData where
  cpp_data : CppData
  cpp_ffi_headers : List CppFfiHeaderData
deriving DecidableEq

/-! ## The Name Map (generate_type_map, lines 148-179) -/

/-- The cpp-to-rust name map, modelled as an insertion-ordered
association list (the source uses a HashMap; only `contains_key`,
`insert` and `get` are used, and lookups are order-independent). -/
abbrev TypeMap := List (String × RustName)

/-- The source's guarded insert: `if !map.contains_key(k) { map.insert(k, v) }`. -/
def tm_insert_if_absent (m : TypeMap) (k : String) (v : RustName) : TypeMap :=
  if (List.lookup k m).isSome then m else m ++ [(k, v)]

/-- Embedding of rust_generator.rs `generate_type_map`
(lines 148-179): first pass over the flat type list (classes with
unknown size are skipped with a warning), second pass over every
header's methods without class membership; both passes insert only
when the qualified name is not yet present. -/
def generate_type_map (input : CppAndFfiData) (config : RustGeneratorConfig) : TypeMap :=
  let m1 := input.cpp_data.types.foldl
    (fun m ti =>
      match ti.kind with
      | .Class none => m
      | _ => tm_insert_if_absent m ti.name
          (calculate_rust_name ti.name ti.include_file false config))
    []
  input.cpp_ffi_headers.foldl
    (fun m header =>
      header.methods.foldl
        (fun m method =>
          if method.cpp_method.class_membership.isNone then
            tm_insert_if_absent m method.cpp_method.name
              (calculate_rust_name method.cpp_method.name header.include_file true config)
          else m)
        m)
    m1

/-- The raw (name, path) pairs the two passes of `generate_type_map`
attempt to insert, in processing order, duplicates included. -/
def type_map_entries (input : CppAndFfiData) (config : RustGeneratorConfig) :
    List (String × RustName) :=
  (input.cpp_data.types.filterMap
    (fun ti =>
      match ti.kind with
      | .Class none => none
      | _ => some (ti.name, calculate_rust_name ti.name ti.include_file false config)))
  ++ (input.cpp_ffi_headers.flatMap
      (fun header =>
        header.methods.filterMap
          (fun method =>
            if method.cpp_method.class_membership.isNone then
              some (method.cpp_method.name,
                calculate_rust_name method.cpp_method.name header.include_file true config)
            else none)))

theorem lookup_append {α β : Type} [BEq α] (k : α) (l1 l2 : List (α × β)) :
    List.lookup k (l1 ++ l2) =
      match List.lookup k l1 with
      | some v => some v
      | none => List.lookup k l2 := by
  induction l1 with
  | nil => simp [List.lookup]
  | cons p l ih =>
      cases p with
      | mk a b =>
          simp only [List.cons_append, List.lookup]
          cases k == a <;> simp [ih]

theorem lookup_fold_insert (l : List (String × RustName)) :
    ∀ (m : TypeMap) (k : String),
      List.lookup k (l.foldl (fun m p => tm_insert_if_absent m p.1 p.2) m) =
        match List.lookup k m with
        | some v => some v
        | none => List.lookup k l := by
  induction l with
  | nil => intro m k; cases h : List.lookup k m <;> simp [List.lookup, h]
  | cons p l ih =>
      intro m k
      cases p with
      | mk a b =>
          simp only [List.foldl_cons]
          rw [ih]
          unfold tm_insert_if_absent
          cases hm : List.lookup a m with
          | some v =>
              simp only [Option.isSome_some, if_pos]
              cases hk : List.lookup k m with
              | some w => simp
              | none =>
                  have hka : (k == a) = false := by
                    cases hcmp : k == a with
                    | true =>
                        exfalso
                        have : k = a := by exact eq_of_beq hcmp
                        rw [this, hm] at hk
                        cases hk
                    | false => rfl
                  simp [List.lookup, hka]
          | none =>
              simp only [Option.isSome_none, Bool.false_eq_true, if_false]
              rw [lookup_append]
              cases hk : List.lookup k m with
              | some w => simp
              | none =>
                  simp only [List.lookup, List.lookup_nil]
                  cases hcmp : k == a <;> simp

theorem types_pass_eq (config : RustGeneratorConfig) :
    ∀ (types : List CppTypeData) (m : TypeMap),
      types.foldl
        (fun m ti =>
          match ti.kind with
          | .Class none => m
          | _ => tm_insert_if_absent m ti.name
              (calculate_rust_name ti.name ti.include_file false config))
        m =
      (types.filterMap
        (fun ti =>
          match ti.kind with
          | .Class none => none
          | _ => some (ti.name, calculate_rust_name ti.name ti.include_file false config))).foldl
        (fun m p => tm_insert_if_absent m p.1 p.2) m := by
  intro types
  induction types with
  | nil => intro m; rfl
  | cons ti rest ih =>
      intro m
      match hk : ti.kind with
      | .Enum vals => simp only [List.foldl_cons, List.filterMap_cons, hk]; exact ih _
      | .Class none => simp only [List.foldl_cons, List.filterMap_cons, hk]; exact ih _
      | .Class (some s) => simp only [List.foldl_cons, List.filterMap_cons, hk]; exact ih _

theorem methods_pass_eq (config : RustGeneratorConfig) (header : CppFfiHeaderData) :
    ∀ (methods : List CppAndFfiMethod) (m : TypeMap),
      methods.foldl
        (fun m method =>
          if method.cpp_method.class_membership.isNone then
            tm_insert_if_absent m method.cpp_method.name
              (calculate_rust_name method.cpp_method.name header.include_file true config)
          else m)
        m =
      (methods.filterMap
        (fun method =>
          if method.cpp_method.class_membership.isNone then
            some (method.cpp_method.name,
              calculate_rust_name method.cpp_method.name header.include_file true config)
          else none)).foldl
        (fun m p => tm_insert_if_absent m p.1 p.2) m := by
  intro methods
  induction methods with
  | nil => intro m; rfl
  | cons method rest ih =>
      intro m
      by_cases hmem : method.cpp_method.class_membership.isNone = true
      · simp only [List.foldl_cons, List.filterMap_cons, if_pos hmem]
        exact ih _
      · simp only [List.foldl_cons, List.filterMap_cons, if_neg hmem]
        exact ih _

theorem headers_pass_eq (config : RustGeneratorConfig) :
    ∀ (headers : List CppFfiHeaderData) (m : TypeMap),
      headers.foldl
        (fun m header =>
          header.methods.foldl
            (fun m method =>
              if method.cpp_method.class_membership.isNone then
                tm_insert_if_absent m method.cpp_method.name
                  (calculate_rust_name method.cpp_method.name header.include_file true config)
              else m)
            m)
        m =
      (headers.flatMap
        (fun header =>
          header.methods.filterMap
            (fun method =>
              if method.cpp_method.class_membership.isNone then
                some (method.cpp_method.name,
                  calculate_rust_name method.cpp_method.name header.include_file true config)
              else none))).foldl
        (fun m p => tm_insert_if_absent m p.1 p.2) m := by
  intro headers
  induction headers with
  | nil => intro m; rfl
  | cons header rest ih =>
      intro m
      simp only [List.foldl_cons, List.flatMap_cons, List.foldl_append]
      rw [methods_pass_eq config header, ih]

/-- C8: the Name Map reads back, for every qualified name, exactly the
path computed from the first eligible entity carrying that name in
processing order (type pass first, then the free-function pass); a
later entity with an already-present name never overwrites the
earlier mapping. -/
theorem c8_first_write_wins (input : CppAndFfiData) (config : RustGeneratorConfig)
    (k : String) :
    List.lookup k (generate_type_map input config)
      = List.lookup k (type_map_entries input config) := by
  unfold generate_type_map type_map_entries
  rw [types_pass_eq config, headers_pass_eq config, ← List.foldl_append,
    lookup_fold_insert]
  simp [List.lookup]

/-- Concrete check of C8: a duplicated free-function name keeps the
path derived from the type pass. -/
example :
    List.lookup "Dup"
      (generate_type_map
        { cpp_data :=
            { types := [{ name := "Dup", include_file := "QFirst",
                          kind := CppTypeKind.Class (some 4) }],
              template_instantiations := [] },
          cpp_ffi_headers :=
            [{ include_file := "QSecond",
               methods :=
                 [{ cpp_method :=
                      { name := "Dup", class_membership := none, operator_flag := false },
                    allocation_place := ReturnValueAllocationPlace.NotApplicable,
                    c_signature := { arguments := [], return_type := CppFfiType.void },
                    c_name := "dup_c" }] }] }
        qtTestConfig)
      = some (RustName.mk ["qt_core", "first", "Dup"]) := by decide

/-- Witness for C7 at a concrete input: "QStringList::Iterator"
declared in header "QStringList" collapses the duplicate segment. -/
theorem c7_path_collapse_witness :
    (calculate_rust_name "QStringList::Iterator" "QStringList" false qtTestConfig).parts =
      (let split_parts := splitOnNs "QStringList::Iterator"
       let header_module :=
         include_file_to_module_name "QStringList" qtTestConfig.remove_qt_prefix_flag
       let ns_parts := split_parts.dropLast.map
         (fun p => remove_qt_prefix_and_convert_case p Case.Snake
           qtTestConfig.remove_qt_prefix_flag)
       let last_part := remove_qt_prefix_and_convert_case (split_parts.getLastD "")
         (if false then Case.Snake else Case.Class) qtTestConfig.remove_qt_prefix_flag
       if header_module = ns_parts.headD "" then
         qtTestConfig.crate_name :: header_module :: ns_parts.tail ++ [last_part]
       else
         qtTestConfig.crate_name :: header_module :: ns_parts ++ [last_part]) :=
  c7_path_collapse "QStringList::Iterator" "QStringList" false qtTestConfig (by decide)

/-! ## The type mapper (ffi_type / complete_type, lines 193-354) -/

mutual
/-- Embedding of rust_generator.rs `RustGenerator::ffi_type`
(lines 265-354): converts a CppType to its exact FFI-compatible Rust
equivalent; unsupported numerics, missing name-map entries, template
arguments, variadic function pointers and deep indirection are errors;
a template parameter is a panic. -/
def ffi_type (map : TypeMap) : CppType → Res RustType
  | .mk is_const indirection base => do
    let indirectionResult : Res RustTypeIndirection :=
      match indirection with
      | .None => .ok .None
      | .Ptr => .ok .Ptr
      | .PtrPtr => .ok .PtrPtr
      | _ => .err "unsupported level of indirection"
    match base with
    | .Void =>
        match indirection with
        | .None => pure RustType.Void
        | _ => do
            let ind ← indirectionResult
            pure (RustType.Common (RustName.mk ["libc", "c_void"]) none is_const ind)
    | .BuiltInNumeric numeric => do
        let rust_name ←
          if numeric == CppBuiltInNumericType.Bool then
            pure (RustName.mk ["bool"])
          else
            match numeric with
            | .Char => pure (RustName.mk ["libc", "c_char"])
            | .SChar => pure (RustName.mk ["libc", "c_schar"])
            | .UChar => pure (RustName.mk ["libc", "c_uchar"])
            | .WChar => pure (RustName.mk ["libc", "wchar_t"])
            | .Short => pure (RustName.mk ["libc", "c_short"])
            | .UShort => pure (RustName.mk ["libc", "c_ushort"])
            | .Int => pure (RustName.mk ["libc", "c_int"])
            | .UInt => pure (RustName.mk ["libc", "c_uint"])
            | .Long => pure (RustName.mk ["libc", "c_long"])
            | .ULong => pure (RustName.mk ["libc", "c_ulong"])
            | .LongLong => pure (RustName.mk ["libc", "c_longlong"])
            | .ULongLong => pure (RustName.mk ["libc", "c_ulonglong"])
            | .Float => pure (RustName.mk ["libc", "c_float"])
            | .Double => pure (RustName.mk ["libc", "c_double"])
            | _ => Res.err "unsupported numeric type"
        let ind ← indirectionResult
        pure (RustType.Common rust_name none is_const ind)
    | .SpecificNumeric _ bits kind => do
        let letter :=
          match kind with
          | .Integer is_signed => if is_signed then "i" else "u"
          | .FloatingPoint => "f"
        let ind ← indirectionResult
        pure (RustType.Common (RustName.mk [letter ++ toString bits]) none is_const ind)
    | .PointerSizedInteger _ is_signed => do
        let ind ← indirectionResult
        pure (RustType.Common
          (RustName.mk [if is_signed then "isize" else "usize"]) none is_const ind)
    | .Enum name => do
        match List.lookup name map with
        | none => Res.err ("Type has no Rust equivalent: " ++ name)
        | some rust_name => do
            let ind ← indirectionResult
            pure (RustType.Common rust_name none is_const ind)
    | .Class name template_arguments => do
        if template_arguments.isSome then
          Res.err "template types are not supported here yet"
        else
          match List.lookup name map with
          | none => Res.err ("Type has no Rust equivalent: " ++ name)
          | some rust_name => do
              let ind ← indirectionResult
              pure (RustType.Common rust_name none is_const ind)
    | .FunctionPointer return_type arguments allows_variadic_arguments => do
        if allows_variadic_arguments then
          Res.err "Function pointers with variadic arguments are not supported"
        else do
          let rust_args ← ffi_type_list map arguments
          let rust_return_type ← ffi_type map return_type
          pure (RustType.FunctionPointer rust_return_type rust_args)
    | .TemplateParameter _ _ => Res.panic "invalid cpp type"

/-- The `try!` loop over function-pointer argument types inside
`ffi_type`. -/
def ffi_type_list (map : TypeMap) : List CppType → Res (List RustType)
  | [] => pure []
  | t :: rest => do
      let r ← ffi_type map t
      let rs ← ffi_type_list map rest
      pure (r :: rs)
end

/-- Modelled from the spec: rust_type::CompleteType — FFI type,
API-facing type and the conversion tag between them (§3). -/
structure CompleteType where
  cpp_ffi_type : CppType
  cpp_type : CppType
  cpp_to_ffi_conversion : IndirectionChange
  rust_ffi_type : RustType
  rust_api_type : RustType
  rust_api_to_c_conversion : RustToCTypeConversion
deriving DecidableEq

/-- Embedding of rust_generator.rs `RustGenerator::complete_type`
(lines 195-262): derive the API-facing type and conversion tag from
the FFI type according to the indirection-change classification, with
the QFlags special case rewriting the API type to the generic flags
wrapper. -/
def complete_type (map : TypeMap) (cpp_ffi_type : CppFfiType)
    (argument_meaning : CppFfiArgumentMeaning) : Res CompleteType := do
  let rust_ffi_type ← ffi_type map cpp_ffi_type.ffi_type
  let step1 : Res (RustType × RustToCTypeConversion) :=
    match rust_ffi_type with
    | RustType.Common base ga c ind =>
        match cpp_ffi_type.conversion with
        | .NoChange =>
            if argument_meaning == CppFfiArgumentMeaning.This then do
              let _ ← rassert (ind == RustTypeIndirection.Ptr)
                "assertion failed: indirection == Ptr"
              pure (RustType.Common base ga c (RustTypeIndirection.Ref none),
                RustToCTypeConversion.RefToPtr)
            else
              pure (RustType.Common base ga c ind, RustToCTypeConversion.None)
        | .ValueToPointer => do
            let _ ← rassert (ind == RustTypeIndirection.Ptr)
              "assertion failed: indirection == Ptr"
            pure (RustType.Common base ga c RustTypeIndirection.None,
              RustToCTypeConversion.ValueToPtr)
        | .ReferenceToPointer => do
            let _ ← rassert (ind == RustTypeIndirection.Ptr)
              "assertion failed: indirection == Ptr"
            pure (RustType.Common base ga c (RustTypeIndirection.Ref none),
              RustToCTypeConversion.RefToPtr)
        | .QFlagsToUInt => pure (RustType.Common base ga c ind, RustToCTypeConversion.None)
    | other => pure (other, RustToCTypeConversion.None)
  let s1 ← step1
  let step2 : Res (RustType × RustToCTypeConversion) :=
    if cpp_ffi_type.conversion == IndirectionChange.QFlagsToUInt then do
      let enum_type ←
        match cpp_ffi_type.original_type.base with
        | CppTypeBase.Class _ template_arguments => do
            let args ← runwrap template_arguments "unwrap on None"
            let _ ← rassert (args.length == 1) "assertion failed: args.len() == 1"
            match args.head? with
            | some a =>
                match a.base with
                | CppTypeBase.Enum name =>
                    match List.lookup name map with
                    | none => Res.err ("Type has no Rust equivalent: " ++ name)
                    | some rust_name => pure rust_name
                | _ => Res.panic "invalid original type for QFlags"
            | none => Res.panic "index out of bounds"
        | _ => Res.panic "invalid original type for QFlags"
      pure (RustType.Common (RustName.mk ["qt_core", "flags", "QFlags"])
          (some [RustType.Common enum_type none false RustTypeIndirection.None])
          false RustTypeIndirection.None,
        RustToCTypeConversion.QFlagsToUInt)
    else
      pure s1
  let s2 ← step2
  pure { cpp_ffi_type := cpp_ffi_type.ffi_type, cpp_type := cpp_ffi_type.original_type,
         cpp_to_ffi_conversion := cpp_ffi_type.conversion, rust_ffi_type := rust_ffi_type,
         rust_api_type := s2.1, rust_api_to_c_conversion := s2.2 }

/-- Modelled from the spec: rust_type::RustFFIArgument. -/
structure RustFFIArgument where
  name : String
  argument_type : RustType
deriving DecidableEq

/-- Modelled from the spec: rust_type::RustFFIFunction. -/
structure RustFFIFunction where
  return_type : RustType
  name : String
  arguments : List RustFFIArgument
deriving DecidableEq

/-- The `try!` loop over C signature arguments inside `ffi_function`. -/
def ffi_function_args (map : TypeMap) : List CppFfiFunctionArgument → Res (List RustFFIArgument)
  | [] => pure []
  | arg :: rest => do
      let rust_type ← ffi_type map arg.argument_type.ffi_type
      let rs ← ffi_function_args map rest
      pure ({ name := sanitize_rust_identifier arg.name, argument_type := rust_type } :: rs)

/-- Embedding of rust_generator.rs `RustGenerator::ffi_function`
(lines 358-372): purely structural mapping of every argument and the
return slot of the C signature, with no ownership recipe. -/
def ffi_function (map : TypeMap) (data : CppAndFfiMethod) : Res RustFFIFunction := do
  let args ← ffi_function_args map data.c_signature.arguments
  let ret ← ffi_type map data.c_signature.return_type.ffi_type
  pure { return_type := ret, name := data.c_name, arguments := args }

/-! ## The Rust method model (rust_info.rs, modelled) -/

/-- Modelled from the spec: rust_info::TraitName, restricted to the
two variants rust_generator.rs constructs: the ownership-release hook
and the heap-deleter registration (§4.5 destructor policy). -/
inductive TraitName where
  | Drop
  | CppDeletable (deleter_name : String)
deriving DecidableEq

/-- Modelled from the spec: rust_info::RustMethodScope — free, bound
to a type, or inside a trait impl (§3 Target Method scope). -/
inductive RustMethodScope where
  | Impl (type_name : RustName)
  | TraitImpl (type_name : RustName) (trait_name : TraitName)
  | Free
deriving DecidableEq

/-- Modelled from the spec: rust_info::RustMethodArgument. -/
structure RustMethodArgument where
  argument_type : CompleteType
  name : String
  ffi_index : Option Int
deriving DecidableEq

/-- Modelled from the spec: rust_info::RustMethodArgumentsVariant —
one argument shape of a callable. -/
structure RustMethodArgumentsVariant where
  arguments : List RustMethodArgument
  cpp_method : CppAndFfiMethod
  return_type : CompleteType
  return_type_ffi_index : Option Int
deriving DecidableEq

/-- Modelled from the spec: rust_info::RustMethodArguments —
single-shape, or multi-shape forwarding through a dispatch trait (§3
Target Method). -/
inductive RustMethodArguments where
  | SingleVariant (variant : RustMethodArgumentsVariant)
  | MultipleVariants (params_trait_name : String) (params_trait_lifetime : Option String)
      (shared_arguments : List RustMethodArgument) (variant_argument_name : String)
deriving DecidableEq

/-- Modelled from the spec: rust_info::RustMethod. -/
structure RustMethod where
  name : RustName
  scope : RustMethodScope
  arguments : RustMethodArguments
deriving DecidableEq

/-- Modelled from the spec: rust_info::TraitImpl. -/
structure TraitImpl where
  target_type : RustName
  trait_name : TraitName
  methods : List RustMethod
deriving DecidableEq

/-- Modelled from the spec: rust_info::RustTypeWrapperKind, restricted
to the fields rust_generator.rs sets. -/
inductive RustTypeWrapperKind where
  | Enum (values : List EnumValue) (is_flaggable : Bool)
  | Struct (size : Nat)
deriving DecidableEq

/-- Modelled from the spec: rust_info::RustTypeDeclarationKind — a
wrapper for a C++ type, or a synthesized dispatch trait (§3). -/
inductive RustTypeDeclarationKind where
  | CppTypeWrapper (kind : RustTypeWrapperKind) (cpp_type_name : String)
      (cpp_template_arguments : Option (List CppType))
      (methods : List RustMethod) (traits : List TraitImpl)
  | MethodParametersTrait (shared_arguments : List RustMethodArgument)
      (impls : List RustMethodArgumentsVariant) (lifetime : Option String)
deriving DecidableEq

/-- Modelled from the spec: rust_info::RustTypeDeclaration. -/
structure RustTypeDeclaration where
  name : String
  kind : RustTypeDeclarationKind
deriving DecidableEq

/-- Modelled from the spec: rust_info::RustModule (§3 Module: name,
owned types, owned methods, owned child modules). -/
structure RustModule where
  name : String
  types : List RustTypeDeclaration
  functions : List RustMethod
  submodules : List RustModule

/-! ## Method synthesis (generate_function, lines 564-673) -/

/-- Embedding of rust_generator.rs `RustGenerator::method_rust_name`
(lines 654-673): free functions read the Name Map (unwrap panics when
absent); member methods become "new"/"delete"/snake-cased name; the
final segment is passed through the reserved-word guard. -/
def method_rust_name (map : TypeMap) (method : CppAndFfiMethod) : Res RustName := do
  let name ←
    if method.cpp_method.class_membership.isNone then
      runwrap (List.lookup method.cpp_method.name map) "unwrap on None"
    else
      pure (RustName.mk
        [if method.cpp_method.is_constructor then "new"
         else if method.cpp_method.is_destructor then "delete"
         else toSnakeCaseS method.cpp_method.name])
  match name.parts.getLast? with
  | none => Res.panic "unwrap on None"
  | some last =>
      let sanitized := sanitize_rust_identifier last
      if sanitized ≠ last then
        pure (RustName.mk (name.parts.dropLast ++ [sanitized]))
      else
        pure name

/-- The source wraps a failing `complete_type` into an error message
naming the method (lines 604-609 and 631-635); panics pass through. -/
def wrap_method_err (method : CppAndFfiMethod) {α : Type} : Res α → Res α
  | .err msg =>
      .err ("Can't generate Rust method for method:\n" ++ method.short_text
        ++ "\n" ++ msg ++ "\n")
  | .ok a => .ok a
  | .panic p => .panic p

/-- The argument loop of `generate_function` (lines 574-610): complete
each C-signature argument, record the return-value argument (asserting
it is unique), rename the receiver to "self", and downgrade a
heap-allocated destructor's receiver conversion from
reference-to-pointer to value-to-pointer. -/
def generate_function_args (map : TypeMap) (method : CppAndFfiMethod) :
    List (Nat × CppFfiFunctionArgument) → List RustMethodArgument →
    Option (CompleteType × Int) →
    Res (List RustMethodArgument × Option (CompleteType × Int))
  | [], arguments, return_type_info => pure (arguments, return_type_info)
  | (arg_index, arg) :: rest, arguments, return_type_info => do
      let ct ← wrap_method_err method (complete_type map arg.argument_type arg.meaning)
      (if arg.meaning == CppFfiArgumentMeaning.ReturnValue then do
            let _ ← rassert return_type_info.isNone
              "assertion failed: return_type_info.is_none()"
            generate_function_args map method rest arguments
              (some (ct, Int.ofNat arg_index))
          else do
            let completed ←
              if method.allocation_place == ReturnValueAllocationPlace.Heap
                  && method.cpp_method.is_destructor then
                match ct.rust_api_type with
                | RustType.Common base ga c ind => do
                    let _ ← rassert (ind == RustTypeIndirection.Ref none)
                      "assertion failed: indirection is a reference"
                    let t2 := { ct with
                      rust_api_type := RustType.Common base ga c RustTypeIndirection.None }
                    let _ ← rassert
                      (t2.rust_api_to_c_conversion == RustToCTypeConversion.RefToPtr)
                      "assertion failed: conversion is RefToPtr"
                    pure { t2 with
                      rust_api_to_c_conversion := RustToCTypeConversion.ValueToPtr }
                | _ => Res.panic "unexpected void type"
              else
                pure ct
            generate_function_args map method rest
              (arguments ++
                [{ ffi_index := some (Int.ofNat arg_index),
                   argument_type := completed,
                   name := if arg.meaning == CppFfiArgumentMeaning.This then "self"
                           else sanitize_rust_identifier (toSnakeCaseS arg.name) }])
              return_type_info)

/-- Embedding of rust_generator.rs `RustGenerator::generate_function`
(lines 564-652): reject operators; complete all arguments; derive the
return from the return-value argument or from the method's own FFI
return slot, promoting a heap-allocated non-destructor return from
value to pointer and clearing its conversion tag. -/
def generate_function (map : TypeMap) (method : CppAndFfiMethod) (scope : RustMethodScope) :
    Res RustMethod := do
  if method.cpp_method.is_operator then
    Res.err "operators are not supported yet"
  else do
    let s ← generate_function_args map method method.c_signature.arguments.enum [] none
    let return_type_info1 ←
      match s.2 with
      | none => do
          let r ← wrap_method_err method
            (complete_type map method.c_signature.return_type
              CppFfiArgumentMeaning.ReturnValue)
              let r2 ←
                if method.allocation_place == ReturnValueAllocationPlace.Heap
                    && !method.cpp_method.is_destructor then
                  match r.rust_api_type with
                  | RustType.Common base ga c ind => do
                      let _ ← rassert (ind == RustTypeIndirection.None)
                        "assertion failed: indirection == None"
                      let r1 := { r with
                        rust_api_type := RustType.Common base ga c RustTypeIndirection.Ptr }
                      let _ ← rassert (r1.cpp_type.indirection == CppTypeIndirection.None)
                        "assertion failed: cpp indirection == None"
                      let _ ← rassert
                        (r1.cpp_to_ffi_conversion == IndirectionChange.ValueToPointer)
                        "assertion failed: conversion == ValueToPointer"
                      let _ ← rassert
                        (r1.rust_api_to_c_conversion == RustToCTypeConversion.ValueToPtr)
                        "assertion failed: rust conversion == ValueToPtr"
                      pure { r1 with
                        rust_api_to_c_conversion := RustToCTypeConversion.None }
                  | _ => Res.panic "unexpected void type"
                else
                  pure r
              pure ((r2, (none : Option Int)))
      | some ri => do
          let _ ← rassert (method.c_signature.return_type == CppFfiType.void)
            "assertion failed: return type is void"
          pure ((ri.1, some ri.2))
    let name ← method_rust_name map method
    pure { name := name, scope := scope,
           arguments := RustMethodArguments.SingleVariant
             { arguments := s.1, cpp_method := method,
               return_type := return_type_info1.1,
               return_type_ffi_index := return_type_info1.2 } }

/-! ## C4: relating the two mapping pipelines -/

theorem Res.ok_bind {α β : Type} (a : α) (f : α → Res β) :
    ((Res.ok a : Res α) >>= f) = f a := rfl

theorem Res.pure_bind {α β : Type} (a : α) (f : α → Res β) :
    ((pure a : Res α) >>= f) = f a := rfl

theorem Res.err_bind {α β : Type} (e : String) (f : α → Res β) :
    ((Res.err e : Res α) >>= f) = Res.err e := rfl

theorem Res.panic_bind {α β : Type} (p : String) (f : α → Res β) :
    ((Res.panic p : Res α) >>= f) = Res.panic p := rfl

theorem Res.bind_ok {α β : Type} {r : Res α} {f : α → Res β} {b : β}
    (h : (r >>= f) = .ok b) : ∃ a, r = .ok a ∧ f a = .ok b := by
  cases r with
  | ok a => exact ⟨a, rfl, h⟩
  | err e => exact absurd h (by simp [Res.bind_def, Res.bind])
  | panic p => exact absurd h (by simp [Res.bind_def, Res.bind])

theorem rassert_ok {b : Bool} {msg : String} {u : Unit}
    (h : rassert b msg = .ok u) : b = true := by
  cases b with
  | true => rfl
  | false => simp [rassert] at h

theorem wrap_method_err_ok {method : CppAndFfiMethod} {α : Type} {r : Res α} {a : α}
    (h : wrap_method_err method r = .ok a) : r = .ok a := by
  cases r with
  | ok x => exact h
  | err e => simp [wrap_method_err] at h
  | panic p => simp [wrap_method_err] at h

theorem complete_type_ffi_ok {map : TypeMap} {cft : CppFfiType}
    {meaning : CppFfiArgumentMeaning} {ct : CompleteType}
    (h : complete_type map cft meaning = .ok ct) :
    ∃ rt, ffi_type map cft.ffi_type = .ok rt := by
  unfold complete_type at h
  obtain ⟨rt, h1, _⟩ := Res.bind_ok h
  exact ⟨rt, h1⟩

theorem generate_args_ffi_ok (map : TypeMap) (method : CppAndFfiMethod) :
    ∀ (l : List CppFfiFunctionArgument) (n : Nat) (args0 : List RustMethodArgument)
      (rti0 : Option (CompleteType × Int))
      (out : List RustMethodArgument × Option (CompleteType × Int)),
      generate_function_args map method (List.enumFrom n l) args0 rti0 = .ok out →
      ∃ fout, ffi_function_args map l = .ok fout := by
  intro l
  induction l with
  | nil =>
      intro n args0 rti0 out h
      exact ⟨[], rfl⟩
  | cons arg rest ih =>
      intro n args0 rti0 out h
      have hstep : List.enumFrom n (arg :: rest) = (n, arg) :: List.enumFrom (n + 1) rest := rfl
      rw [hstep] at h
      unfold generate_function_args at h
      obtain ⟨ct, hw, h⟩ := Res.bind_ok h
      have hct : complete_type map arg.argument_type arg.meaning = .ok ct :=
        wrap_method_err_ok hw
      obtain ⟨rt, hrt⟩ := complete_type_ffi_ok hct
      have hrest : ∃ args1 rti1, generate_function_args map method
          (List.enumFrom (n + 1) rest) args1 rti1 = .ok out := by
        by_cases hm : (arg.meaning == CppFfiArgumentMeaning.ReturnValue) = true
        · simp only [hm, if_true] at h
          obtain ⟨u, _, h2⟩ := Res.bind_ok h
          exact ⟨_, _, h2⟩
        · simp only [hm] at h
          simp only [Bool.false_eq_true, if_false] at h
          by_cases hh : (method.allocation_place == ReturnValueAllocationPlace.Heap
              && method.cpp_method.is_destructor) = true
          · rw [if_pos hh] at h
            cases hat : ct.rust_api_type with
            | Common base ga c ind =>
                rw [hat] at h
                obtain ⟨u1, _, h2⟩ := Res.bind_ok h
                obtain ⟨u2, _, h3⟩ := Res.bind_ok h2
                obtain ⟨y, hy, h4⟩ := Res.bind_ok h3
                exact ⟨_, _, h4⟩
            | Void =>
                rw [hat] at h
                simp only [Res.panic_bind] at h
                exact absurd h (by simp)
            | FunctionPointer r a =>
                rw [hat] at h
                simp only [Res.panic_bind] at h
                exact absurd h (by simp)
          · rw [if_neg hh] at h
            rw [Res.pure_bind] at h
            exact ⟨_, _, h⟩
      obtain ⟨args1, rti1, h2⟩ := hrest
      obtain ⟨fout, hfout⟩ := ih (n + 1) args1 rti1 out h2
      refine ⟨{ name := sanitize_rust_identifier arg.name, argument_type := rt } :: fout, ?_⟩
      unfold ffi_function_args
      rw [hrt, Res.ok_bind, hfout, Res.ok_bind]
      rfl

theorem generate_ok_ffi_ok (map : TypeMap) (method : CppAndFfiMethod)
    (scope : RustMethodScope) (rm : RustMethod)
    (h : generate_function map method scope = .ok rm) :
    ∃ f, ffi_function map method = .ok f := by
  unfold generate_function at h
  cases hop : method.cpp_method.is_operator with
  | true =>
      simp only [hop, if_true] at h
      exact Res.noConfusion h
  | false =>
      simp only [hop, Bool.false_eq_true, if_false] at h
      obtain ⟨s, hargs, h⟩ := Res.bind_ok h
      have henum : method.c_signature.arguments.enum
          = List.enumFrom 0 method.c_signature.arguments := rfl
      rw [henum] at hargs
      obtain ⟨fargs, hfa⟩ :=
        generate_args_ffi_ok map method method.c_signature.arguments 0 [] none s hargs
      have hfret : ∃ rt, ffi_type map method.c_signature.return_type.ffi_type = .ok rt := by
        cases hs2 : s.2 with
        | none =>
            rw [hs2] at h
            obtain ⟨r, hwrap, _⟩ := Res.bind_ok h
            exact complete_type_ffi_ok (wrap_method_err_ok hwrap)
        | some ri =>
            rw [hs2] at h
            obtain ⟨u, hra, _⟩ := Res.bind_ok h
            have hveq : method.c_signature.return_type = CppFfiType.void :=
              eq_of_beq (rassert_ok hra)
            rw [hveq]
            exact ⟨RustType.Void, rfl⟩
      obtain ⟨rt, hrt⟩ := hfret
      refine ⟨{ return_type := rt, name := method.c_name, arguments := fargs }, ?_⟩
      unfold ffi_function
      rw [hfa, Res.ok_bind, hrt, Res.ok_bind]
      rfl

/-! ## C6: heap-allocated non-destructor return promotion -/

theorem snd_mem_of_mem_enumFrom {α : Type} :
    ∀ (l : List α) (n : Nat) (p : Nat × α), p ∈ List.enumFrom n l → p.2 ∈ l := by
  intro l
  induction l with
  | nil => intro n p hp; cases hp
  | cons a rest ih =>
      intro n p hp
      have : p ∈ (n, a) :: List.enumFrom (n + 1) rest := hp
      rcases List.mem_cons.mp this with h | h
      · rw [h]; exact List.mem_cons_self a rest
      · exact List.mem_cons_of_mem a (ih (n + 1) p h)

theorem generate_args_no_return (map : TypeMap) (method : CppAndFfiMethod) :
    ∀ (l : List (Nat × CppFfiFunctionArgument)) (args0 : List RustMethodArgument)
      (out : List RustMethodArgument × Option (CompleteType × Int)),
      (∀ p ∈ l, p.2.meaning ≠ CppFfiArgumentMeaning.ReturnValue) →
      generate_function_args map method l args0 none = .ok out → out.2 = none := by
  intro l
  induction l with
  | nil =>
      intro args0 out _ h
      unfold generate_function_args at h
      injection h with h1
      rw [← h1]
  | cons p rest ih =>
      intro args0 out hno h
      cases p with
      | mk idx arg =>
          unfold generate_function_args at h
          obtain ⟨ct, hw, h⟩ := Res.bind_ok h
          have hne : arg.meaning ≠ CppFfiArgumentMeaning.ReturnValue :=
            hno (idx, arg) (List.mem_cons_self _ _)
          have hmb : (arg.meaning == CppFfiArgumentMeaning.ReturnValue) = false := by
            cases hx : arg.meaning == CppFfiArgumentMeaning.ReturnValue with
            | true => exact absurd (eq_of_beq hx) hne
            | false => rfl
          simp only [hmb, Bool.false_eq_true, if_false] at h
          have hno' : ∀ q ∈ rest, q.2.meaning ≠ CppFfiArgumentMeaning.ReturnValue :=
            fun q hq => hno q (List.mem_cons_of_mem _ hq)
          by_cases hh : (method.allocation_place == ReturnValueAllocationPlace.Heap
              && method.cpp_method.is_destructor) = true
          · rw [if_pos hh] at h
            cases hat : ct.rust_api_type with
            | Common base ga c ind =>
                rw [hat] at h
                obtain ⟨u1, _, h2⟩ := Res.bind_ok h
                obtain ⟨u2, _, h3⟩ := Res.bind_ok h2
                obtain ⟨y, hy, h4⟩ := Res.bind_ok h3
                exact ih _ out hno' h4
            | Void =>
                rw [hat] at h
                simp only [Res.panic_bind] at h
                exact absurd h (by simp)
            | FunctionPointer r a =>
                rw [hat] at h
                simp only [Res.panic_bind] at h
                exact absurd h (by simp)
          · rw [if_neg hh] at h
            rw [Res.pure_bind] at h
            exact ih _ out hno' h

/-- C6: for a successfully generated non-destructor method with heap
allocation place and no argument carrying return-value meaning, the
return type is derived from the method's own FFI return slot with its
API-facing indirection promoted from none to pointer and the prior
value-to-pointer conversion tag cleared. -/
theorem c6_heap_return_promotion (map : TypeMap) (method : CppAndFfiMethod)
    (scope : RustMethodScope) (rm : RustMethod)
    (hheap : method.allocation_place = ReturnValueAllocationPlace.Heap)
    (hdes : method.cpp_method.is_destructor = false)
    (hnorv : ∀ arg ∈ method.c_signature.arguments,
      arg.meaning ≠ CppFfiArgumentMeaning.ReturnValue)
    (h : generate_function map method scope = .ok rm) :
    ∃ r base ga c v,
      complete_type map method.c_signature.return_type CppFfiArgumentMeaning.ReturnValue
        = .ok r
      ∧ r.rust_api_type = RustType.Common base ga c RustTypeIndirection.None
      ∧ r.rust_api_to_c_conversion = RustToCTypeConversion.ValueToPtr
      ∧ rm.arguments = RustMethodArguments.SingleVariant v
      ∧ v.return_type =
          { r with rust_api_type := RustType.Common base ga c RustTypeIndirection.Ptr,
                   rust_api_to_c_conversion := RustToCTypeConversion.None }
      ∧ v.return_type_ffi_index = none := by
  unfold generate_function at h
  cases hop : method.cpp_method.is_operator with
  | true =>
      simp only [hop, if_true] at h
      exact Res.noConfusion h
  | false =>
      simp only [hop, Bool.false_eq_true, if_false] at h
      obtain ⟨s, hargs, h⟩ := Res.bind_ok h
      have hs2 : s.2 = none := by
        refine generate_args_no_return map method _ [] s ?_ hargs
        intro p hp
        exact hnorv p.2 (snd_mem_of_mem_enumFrom _ 0 p hp)
      rw [hs2] at h
      obtain ⟨r, hwrap, h⟩ := Res.bind_ok h
      have hct : complete_type map method.c_signature.return_type
          CppFfiArgumentMeaning.ReturnValue = .ok r := wrap_method_err_ok hwrap
      have hcond : (method.allocation_place == ReturnValueAllocationPlace.Heap
          && !method.cpp_method.is_destructor) = true := by
        simp [hheap, hdes]
      rw [if_pos hcond] at h
      cases hat : r.rust_api_type with
      | Void =>
          rw [hat] at h
          simp only [Res.panic_bind] at h
          exact absurd h (by simp)
      | FunctionPointer fr fa =>
          rw [hat] at h
          simp only [Res.panic_bind] at h
          exact absurd h (by simp)
      | Common base ga c ind =>
          rw [hat] at h
          obtain ⟨u1, hra1, h⟩ := Res.bind_ok h
          have hind : ind = RustTypeIndirection.None := eq_of_beq (rassert_ok hra1)
          obtain ⟨u2, hra2, h⟩ := Res.bind_ok h
          obtain ⟨u3, hra3, h⟩ := Res.bind_ok h
          obtain ⟨u4, hra4, h⟩ := Res.bind_ok h
          have hconv : r.rust_api_to_c_conversion = RustToCTypeConversion.ValueToPtr :=
            eq_of_beq (rassert_ok hra4)
          obtain ⟨y, hy, h⟩ := Res.bind_ok h
          obtain ⟨y2, hy2, h⟩ := Res.bind_ok h
          obtain ⟨nm, hnm, h⟩ := Res.bind_ok h
          injection h with hrm
          injection hy with hyv
          injection hy2 with hy2v
          refine ⟨r, base, ga, c, ⟨s.1, method, y2.1, y2.2⟩, hct,
            by rw [hat, hind], hconv, ?_, ?_, ?_⟩
          · rw [← hrm]
          · rw [← hy2v, ← hyv]
          · rw [← hy2v]

/-- A one-class name map for concrete checks. -/
def c6_map : TypeMap := [("C", RustName.mk ["crate_x", "m", "C"])]

/-- A heap-allocated non-destructor factory method returning a new C
by address. -/
def c6_method : CppAndFfiMethod :=
  { cpp_method :=
      { name := "make", class_membership := some { class_name := "C", kind := .Regular },
        operator_flag := false },
    allocation_place := .Heap,
    c_signature :=
      { arguments := [],
        return_type :=
          { original_type := .mk false .None (.Class "C" none),
            ffi_type := .mk false .Ptr (.Class "C" none),
            conversion := .ValueToPointer } },
    c_name := "c_make" }

/-- The method generated for `c6_method`. -/
def c6_result : RustMethod :=
  { name := RustName.mk ["make"],
    scope := .Impl (RustName.mk ["crate_x", "m", "C"]),
    arguments := RustMethodArguments.SingleVariant
      { arguments := [],
        cpp_method := c6_method,
        return_type :=
          { cpp_ffi_type := .mk false .Ptr (.Class "C" none),
            cpp_type := .mk false .None (.Class "C" none),
            cpp_to_ffi_conversion := .ValueToPointer,
            rust_ffi_type := .Common (RustName.mk ["crate_x", "m", "C"]) none false .Ptr,
            rust_api_type := .Common (RustName.mk ["crate_x", "m", "C"]) none false .Ptr,
            rust_api_to_c_conversion := .None },
        return_type_ffi_index := none } }

/-- Witness for C6 at the concrete method `c6_method`. -/
theorem c6_heap_return_promotion_witness :
    ∃ r base ga c v,
      complete_type c6_map c6_method.c_signature.return_type
          CppFfiArgumentMeaning.ReturnValue = .ok r
      ∧ r.rust_api_type = RustType.Common base ga c RustTypeIndirection.None
      ∧ r.rust_api_to_c_conversion = RustToCTypeConversion.ValueToPtr
      ∧ c6_result.arguments = RustMethodArguments.SingleVariant v
      ∧ v.return_type =
          { r with rust_api_type := RustType.Common base ga c RustTypeIndirection.Ptr,
                   rust_api_to_c_conversion := RustToCTypeConversion.None }
      ∧ v.return_type_ffi_index = none :=
  c6_heap_return_promotion c6_map c6_method (.Impl (RustName.mk ["crate_x", "m", "C"]))
    c6_result rfl rfl (fun a ha => absurd ha (List.not_mem_nil a)) rfl

/-! ## C4: the claim theorems -/

/-- An operator method with perfectly mappable types. -/
def c4_operator_method : CppAndFfiMethod :=
  { cpp_method :=
      { name := "operator+", class_membership := some { class_name := "C", kind := .Regular },
        operator_flag := true },
    allocation_place := .NotApplicable,
    c_signature := { arguments := [], return_type := CppFfiType.void },
    c_name := "c_op" }

/-- A plain method that succeeds in both pipelines. -/
def c4_plain_method : CppAndFfiMethod :=
  { cpp_method :=
      { name := "f", class_membership := some { class_name := "C", kind := .Regular },
        operator_flag := false },
    allocation_place := .NotApplicable,
    c_signature := { arguments := [], return_type := CppFfiType.void },
    c_name := "c_f" }

/-- The method generated for `c4_plain_method`. -/
def c4_plain_result : RustMethod :=
  { name := RustName.mk ["f"],
    scope := .Free,
    arguments := RustMethodArguments.SingleVariant
      { arguments := [],
        cpp_method := c4_plain_method,
        return_type :=
          { cpp_ffi_type := CppType.void, cpp_type := CppType.void,
            cpp_to_ffi_conversion := .NoChange, rust_ffi_type := .Void,
            rust_api_type := .Void, rust_api_to_c_conversion := .None },
        return_type_ffi_index := none } }

/-- C4 is false as stated: its second half ("vice versa") cannot
happen.  Whenever the API-level generation of a method succeeds, its
FFI-table mapping succeeds as well, so no method can fail FFI-table
mapping yet yield an API-level method. -/
theorem c4_counterexample :
    ¬ ((∃ (map : TypeMap) (m : CppAndFfiMethod) (scope : RustMethodScope)
          (e : String) (f : RustFFIFunction),
            generate_function map m scope = .err e ∧ ffi_function map m = .ok f)
       ∧ (∃ (map : TypeMap) (m : CppAndFfiMethod) (scope : RustMethodScope)
          (e : String) (rm : RustMethod),
            ffi_function map m = .err e ∧ generate_function map m scope = .ok rm)) := by
  rintro ⟨-, map, m, scope, e, rm, hffi, hgen⟩
  obtain ⟨f, hf⟩ := generate_ok_ffi_ok map m scope rm hgen
  rw [hf] at hffi
  exact Res.noConfusion hffi

/-- C4 (amended): the failure sets are one-sidedly independent — a
method can fail API-level generation yet appear in the FFI table (an
operator method does), but a method whose FFI-table mapping fails
never yields an API-level method: API-level success implies FFI-table
success. -/
theorem c4_failure_containment :
    (generate_function [] c4_operator_method RustMethodScope.Free
        = .err "operators are not supported yet"
      ∧ ffi_function [] c4_operator_method
        = .ok { return_type := .Void, name := "c_op", arguments := [] })
    ∧ (∀ (map : TypeMap) (m : CppAndFfiMethod) (scope : RustMethodScope) (rm : RustMethod),
        generate_function map m scope = .ok rm → ∃ f, ffi_function map m = .ok f) :=
  ⟨⟨rfl, rfl⟩, generate_ok_ffi_ok⟩

/-- Witness for the universally quantified half of C4 at a concrete
successfully generated method. -/
theorem c4_failure_containment_witness :
    ∃ f, ffi_function [] c4_plain_method = .ok f :=
  c4_failure_containment.2 [] c4_plain_method RustMethodScope.Free c4_plain_result rfl

/-! ## Overload resolution (process_functions, lines 675-889) -/

/-- Modelled from the spec: rust_info::RustMethodSelfArgKind — the
receiver kind of a callable: none, by-value, by-reference or
by-pointer (§4.5). -/
inductive RustMethodSelfArgKind where
  | Static
  | ByValue
  | ByRef
  | ByPtr
deriving DecidableEq

/-- Modelled from the spec: the receiver kind of an argument list: the
first argument named "self" decides the kind through the indirection
of its API-facing type. -/
def args_self_kind (args : List RustMethodArgument) : RustMethodSelfArgKind :=
  match args.head? with
  | some a =>
      if a.name = "self" then
        match a.argument_type.rust_api_type with
        | .Common _ _ _ ind =>
            match ind with
            | .None => .ByValue
            | .Ref _ => .ByRef
            | .Ptr => .ByPtr
            | .PtrPtr => .ByPtr
        | _ => .ByValue
      else .Static
  | none => .Static

/-- Modelled from the spec: RustMethod::self_arg_kind. -/
def RustMethod.self_arg_kind (m : RustMethod) : RustMethodSelfArgKind :=
  match m.arguments with
  | .SingleVariant v => args_self_kind v.arguments
  | .MultipleVariants _ _ shared _ => args_self_kind shared

/-- Modelled from the spec: RustMethodSelfArgKind::caption — the
receiver-kind caption appended to names when several receiver-kind
buckets share one name (§4.5); the concrete strings are opaque to the
verified properties. -/
def RustMethodSelfArgKind.caption : RustMethodSelfArgKind → String
  | .Static => "static"
  | .ByValue => "value"
  | .ByRef => "ref"
  | .ByPtr => "ptr"

/-- Modelled from the spec: utils::add_to_multihash on an
insertion-ordered association list. -/
def add_to_multihash {K V : Type} [DecidableEq K] :
    List (K × List V) → K → V → List (K × List V)
  | [], k, v => [(k, [v])]
  | (k0, vs) :: rest, k, v =>
      if k0 = k then (k0, vs ++ [v]) :: rest
      else (k0, vs) :: add_to_multihash rest k v

/-- Grouping of same-named methods by receiver kind
(lines 739-743). -/
def group_by_self_kind (ms : List RustMethod) :
    List (RustMethodSelfArgKind × List RustMethod) :=
  ms.foldl (fun acc m => add_to_multihash acc m.self_arg_kind m) []

/-- Modelled from the spec: the canonical primitive behind a libc
numeric alias (RustType::dealias_libc ignores only C-library numeric
aliasing when comparing argument shapes, §4.5). -/
def dealias_rust_name (n : RustName) : RustName :=
  match n.parts with
  | ["libc", x] =>
      if x = "c_char" then RustName.mk ["i8"]
      else if x = "c_schar" then RustName.mk ["i8"]
      else if x = "c_uchar" then RustName.mk ["u8"]
      else if x = "wchar_t" then RustName.mk ["i32"]
      else if x = "c_short" then RustName.mk ["i16"]
      else if x = "c_ushort" then RustName.mk ["u16"]
      else if x = "c_int" then RustName.mk ["i32"]
      else if x = "c_uint" then RustName.mk ["u32"]
      else if x = "c_long" then RustName.mk ["i64"]
      else if x = "c_ulong" then RustName.mk ["u64"]
      else if x = "c_longlong" then RustName.mk ["i64"]
      else if x = "c_ulonglong" then RustName.mk ["u64"]
      else if x = "c_float" then RustName.mk ["f32"]
      else if x = "c_double" then RustName.mk ["f64"]
      else n
  | _ => n

mutual
/-- Modelled from the spec: RustType::dealias_libc. -/
def RustType.dealias_libc : RustType → RustType
  | .Void => .Void
  | .Common base none c ind => .Common (dealias_rust_name base) none c ind
  | .Common base (some g) c ind =>
      .Common (dealias_rust_name base) (some (RustType.dealias_list g)) c ind
  | .FunctionPointer r a =>
      .FunctionPointer (RustType.dealias_libc r) (RustType.dealias_list a)

def RustType.dealias_list : List RustType → List RustType
  | [] => []
  | t :: ts => RustType.dealias_libc t :: RustType.dealias_list ts
end

/-- Modelled from the spec: RustType::is_ref. -/
def RustType.is_ref : RustType → Bool
  | .Common _ _ _ (.Ref _) => true
  | _ => false

/-- The three per-allocation-place shape sets of the duplicate filter
(lines 758-761): the source pre-seeds a HashMap with an empty set for
each of the three allocation places. -/
structure RealArgsSets where
  stack : List (List RustType)
  heap : List (List RustType)
  na : List (List RustType)
deriving DecidableEq

def rs_contains (sets : RealArgsSets) (place : ReturnValueAllocationPlace)
    (ra : List RustType) : Bool :=
  match place with
  | .Stack => sets.stack.contains ra
  | .Heap => sets.heap.contains ra
  | .NotApplicable => sets.na.contains ra

def rs_insert (sets : RealArgsSets) (place : ReturnValueAllocationPlace)
    (ra : List RustType) : RealArgsSets :=
  match place with
  | .Stack => { sets with stack := sets.stack ++ [ra] }
  | .Heap => { sets with heap := sets.heap ++ [ra] }
  | .NotApplicable => { sets with na := sets.na ++ [ra] }

/-- The duplicate filter of one receiver-kind bucket (lines 762-786):
drop a method whose dealiased API argument shapes were already seen
for the same allocation place (warning logged); keep first-seen. -/
def filter_duplicates_go (sets : RealArgsSets) : List RustMethod → Res (List RustMethod)
  | [] => pure []
  | method :: rest =>
      match method.arguments with
      | .SingleVariant args =>
          let real_args := args.arguments.map
            (fun x => x.argument_type.rust_api_type.dealias_libc)
          if rs_contains sets args.cpp_method.allocation_place real_args then
            filter_duplicates_go sets rest
          else do
            let fs ← filter_duplicates_go
              (rs_insert sets args.cpp_method.allocation_place real_args) rest
            pure (method :: fs)
      | .MultipleVariants _ _ _ _ => Res.panic "unreachable"

def filter_duplicates (ms : List RustMethod) : Res (List RustMethod) :=
  filter_duplicates_go { stack := [], heap := [], na := [] } ms

/-- The synthetic allocation-place marker argument
(lines 810-828). -/
def allocation_place_marker (marker_name : String) : RustMethodArgument :=
  { name := "allocation_place_marker", ffi_index := none,
    argument_type :=
      { cpp_type := CppType.void, cpp_ffi_type := CppType.void,
        cpp_to_ffi_conversion := .NoChange, rust_ffi_type := .Void,
        rust_api_type := .Common (RustName.mk ["cpp_box", marker_name]) none false .None,
        rust_api_to_c_conversion := .None } }

/-- The variant-collection loop of the multi-shape branch
(lines 801-842): check name and scope agree with the first method,
factor out the shared receiver, append the allocation-place marker. -/
def build_variants (first : RustMethod) (self_argument : Option RustMethodArgument) :
    List RustMethod → Res (List RustMethodArgumentsVariant)
  | [] => pure []
  | method :: rest => do
      let _ ← rassert (method.name == first.name) "assertion failed: same name"
      let _ ← rassert (method.scope == first.scope) "assertion failed: same scope"
      match method.arguments with
      | .SingleVariant args => do
          let args1 ←
            match self_argument with
            | some sa =>
                match args.arguments with
                | a0 :: restargs => do
                    let _ ← rassert (a0 == sa) "assertion failed: shared self argument"
                    pure { args with arguments := restargs }
                | [] => Res.panic "assertion failed: shared self argument"
            | none => pure args
          let args2 :=
            match args1.cpp_method.allocation_place with
            | .Stack => { args1 with
                arguments := args1.arguments ++ [allocation_place_marker "RustManaged"] }
            | .Heap => { args1 with
                arguments := args1.arguments ++ [allocation_place_marker "CppPointer"] }
            | .NotApplicable => args1
          let vs ← build_variants first self_argument rest
          pure (args2 :: vs)
      | .MultipleVariants _ _ _ _ => Res.panic "unreachable"

/-- The multi-shape branch of one bucket (lines 788-859): build the
variant list, factor out the shared receiver, and emit one dispatch
trait plus one forwarding multi-shape method. -/
def bucket_multi_step (trait_name : String) (first_method : RustMethod)
    (filtered_methods : List RustMethod) :
    Res (RustMethod × Option RustTypeDeclaration) :=
  match first_method.arguments with
  | .SingleVariant fargs => do
      let self_argument :=
        match fargs.arguments.head? with
        | some a0 => if a0.name = "self" then some a0 else none
        | none => none
      let args_variants ← build_variants first_method self_argument filtered_methods
      let shared_arguments :=
        match self_argument with
        | none => []
        | some arg => [{ arg with name := "original_self" }]
      let trait_lifetime :=
        if shared_arguments.any (fun x => x.argument_type.rust_api_type.is_ref) then
          some "a"
        else
          none
      pure
        (({ name := first_method.name, scope := first_method.scope,
            arguments := RustMethodArguments.MultipleVariants trait_name
              trait_lifetime shared_arguments "params" } : RustMethod),
         some (RustTypeDeclaration.mk trait_name
           (.MethodParametersTrait shared_arguments args_variants trait_lifetime)))
  | .MultipleVariants _ _ _ _ => Res.panic "unreachable"

/-- The count branch of one bucket (lines 758-859): more than one
surviving shape yields the dispatch trait plus the forwarding method,
exactly one yields the method itself; an empty list reaches the
unwrap of a missing last element. -/
def bucket_pair_step (trait_name : String) :
    List RustMethod → Res (RustMethod × Option RustTypeDeclaration)
  | [] => Res.panic "unwrap on None"
  | first_method :: rest =>
      if (first_method :: rest).length > 1 then
        bucket_multi_step trait_name first_method (first_method :: rest)
      else
        match (first_method :: rest).getLast? with
        | some m => pure ((m, (none : Option RustTypeDeclaration)))
        | none => Res.panic "unwrap on None"

/-- The caption-rename step (lines 860-883): append the receiver-kind
caption to the last name part when the caption flag is set. -/
def caption_step (use_self_arg_caption : Bool) (self_arg_kind : RustMethodSelfArgKind)
    (method : RustMethod) : Res RustMethod :=
  if use_self_arg_caption then
    match method.name.parts.getLast? with
    | none => Res.panic "unwrap on None"
    | some last =>
        pure { method with
          name := RustName.mk (method.name.parts.dropLast
            ++ [last ++ "_" ++ self_arg_kind.caption]) }
  else
    pure method

/-- Processing of one receiver-kind bucket of one name group
(lines 746-886): compute the dispatch-trait name, filter duplicate
shapes, emit either the single surviving method or one dispatch trait
plus one multi-shape forwarding method, and apply the receiver-kind
caption when requested. -/
def process_bucket (scope : RustMethodScope) (method_name : String)
    (use_self_arg_caption : Bool) (self_arg_kind : RustMethodSelfArgKind)
    (overloaded_methods : List RustMethod) :
    Res (RustMethod × Option RustTypeDeclaration) := do
  let trait_name0 :=
    if use_self_arg_caption then method_name ++ self_arg_kind.caption else method_name
  let trait_name1 := toClassCaseS trait_name0 ++ "Params"
  let trait_name :=
    match scope with
    | .Impl type_name => type_name.lastName ++ trait_name1
    | _ => trait_name1
  let _ ← rassert (!overloaded_methods.isEmpty)
    "assertion failed: overloaded methods nonempty"
  let filtered_methods ← filter_duplicates overloaded_methods
  let pair ← bucket_pair_step trait_name filtered_methods
  let method ← caption_step use_self_arg_caption self_arg_kind pair.1
  pure (method, pair.2)

/-- The per-bucket loop of one name group. -/
def process_buckets (scope : RustMethodScope) (method_name : String)
    (use_self_arg_caption : Bool) :
    List (RustMethodSelfArgKind × List RustMethod) →
    Res (List (RustMethod × Option RustTypeDeclaration))
  | [] => pure []
  | (kind, ms) :: rest => do
      let out ← process_bucket scope method_name use_self_arg_caption kind ms
      let outs ← process_buckets scope method_name use_self_arg_caption rest
      pure (out :: outs)

/-- Processing of one name group (lines 734-886): collect the methods
sharing the final name, bucket them by receiver kind, and apply the
caption exactly when more than one bucket exists. -/
def process_name_group (scope : RustMethodScope) (method_name : String)
    (single_rust_methods : List RustMethod) :
    Res (List RustMethod × List RustTypeDeclaration) := do
  let current_methods := single_rust_methods.filter
    (fun m => m.name.lastName == method_name)
  let _ ← rassert (!current_methods.isEmpty)
    "assertion failed: current methods nonempty"
  let self_kind_to_methods := group_by_self_kind current_methods
  let use_self_arg_caption := self_kind_to_methods.length > 1
  let outs ← process_buckets scope method_name use_self_arg_caption self_kind_to_methods
  pure (outs.map Prod.fst, outs.filterMap Prod.snd)

/-- Result record of process_functions
(struct ProcessFunctionsResult, lines 186-190). -/
structure ProcessFunctionsResult where
  methods : List RustMethod
  trait_impls : List TraitImpl
  overloading_types : List RustTypeDeclaration
deriving DecidableEq

/-- Accumulator of the first loop of process_functions: generated
single methods, their distinct final names in insertion order, and the
trait impls produced by destructors. -/
structure Phase1Acc where
  single_rust_methods : List RustMethod
  method_names : List String
  dtor_trait_impls : List TraitImpl
deriving DecidableEq

/-- HashSet::insert on the insertion-ordered name list. -/
def insert_name (names : List String) (n : String) : List String :=
  if names.contains n then names else names ++ [n]

/-- The body of the first loop of process_functions (lines 682-732)
for one method: destructors are dispatched per allocation place
(stack: Drop impl when generation succeeds, warning otherwise; heap:
CppDeletable registration with no callable; anything else: fatal),
destructors outside class scope are fatal, and every other method is
generated and collected. -/
def phase1_step (map : TypeMap) (scope : RustMethodScope) (acc : Phase1Acc)
    (method : CppAndFfiMethod) : Res Phase1Acc :=
  if method.cpp_method.is_destructor then
    match scope with
    | .Impl type_name =>
        match method.allocation_place with
        | .Stack =>
            match generate_function map method scope with
            | .ok m =>
                let dropMethod : RustMethod :=
                  { m with name := RustName.mk ["drop"],
                           scope := .TraitImpl type_name .Drop }
                let ti : TraitImpl :=
                  { target_type := type_name, trait_name := .Drop,
                    methods := [dropMethod] }
                pure { acc with dtor_trait_impls := acc.dtor_trait_impls ++ [ti] }
            | .err _ => pure acc
            | .panic p => Res.panic p
        | .Heap =>
            let ti : TraitImpl :=
              { target_type := type_name,
                trait_name := .CppDeletable method.c_name, methods := [] }
            pure { acc with dtor_trait_impls := acc.dtor_trait_impls ++ [ti] }
        | .NotApplicable => Res.panic "destructor must have allocation place"
    | _ => Res.panic "destructor must be in class scope"
  else
    match generate_function map method scope with
    | .ok rust_method =>
        pure { acc with
          single_rust_methods := acc.single_rust_methods ++ [rust_method],
          method_names := insert_name acc.method_names rust_method.name.lastName }
    | .err _ => pure acc
    | .panic p => Res.panic p

/-- The first loop of process_functions (lines 682-732). -/
def process_functions_phase1 (map : TypeMap) (scope : RustMethodScope) :
    List CppAndFfiMethod → Phase1Acc → Res Phase1Acc
  | [], acc => pure acc
  | method :: rest, acc => do
      let acc1 ← phase1_step map scope acc method
      process_functions_phase1 map scope rest acc1

/-- The second loop of process_functions (lines 734-887): one name
group per collected final name. -/
def process_functions_phase2 (scope : RustMethodScope)
    (single_rust_methods : List RustMethod) :
    List String → Res (List RustMethod × List RustTypeDeclaration)
  | [] => pure ([], [])
  | name :: rest => do
      let out1 ← process_name_group scope name single_rust_methods
      let out2 ← process_functions_phase2 scope single_rust_methods rest
      pure (out1.1 ++ out2.1, out1.2 ++ out2.2)

/-- Embedding of rust_generator.rs `RustGenerator::process_functions`
(lines 675-889). -/
def process_functions (map : TypeMap) (methods : List CppAndFfiMethod)
    (scope : RustMethodScope) : Res ProcessFunctionsResult := do
  let acc ← process_functions_phase1 map scope methods
    { single_rust_methods := [], method_names := [], dtor_trait_impls := [] }
  let out ← process_functions_phase2 scope acc.single_rust_methods acc.method_names
  pure { methods := out.1, trait_impls := acc.dtor_trait_impls,
         overloading_types := out.2 }

/-! ## C1 and C10: destructor policy and free-scope trait impls -/

theorem phase1_free_no_trait_impls (map : TypeMap) :
    ∀ (ms : List CppAndFfiMethod) (acc acc' : Phase1Acc),
      process_functions_phase1 map .Free ms acc = .ok acc' →
      acc'.dtor_trait_impls = acc.dtor_trait_impls := by
  intro ms
  induction ms with
  | nil =>
      intro acc acc' h
      unfold process_functions_phase1 at h
      injection h with h1
      rw [← h1]
  | cons method rest ih =>
      intro acc acc' h
      unfold process_functions_phase1 phase1_step at h
      cases hdes : method.cpp_method.is_destructor with
      | true =>
          simp only [hdes, if_true] at h
          simp only [Res.panic_bind] at h
          exact absurd h (by simp)
      | false =>
          simp only [hdes, Bool.false_eq_true, if_false] at h
          cases hgen : generate_function map method .Free with
          | ok rust_method =>
              rw [hgen] at h
              rw [Res.pure_bind] at h
              exact (ih _ _ h).trans rfl
          | err e =>
              rw [hgen] at h
              rw [Res.pure_bind] at h
              exact ih _ _ h
          | panic p =>
              rw [hgen] at h
              simp only [Res.panic_bind] at h
              exact absurd h (by simp)

/-- C10: a method without class membership is never a destructor, and
free-scope processing never produces a trait implementation — any
normally completed run of process_functions in Free scope has an empty
trait-impl list, so the assertion in generate_module always holds. -/
theorem c10_free_scope_no_trait_impls :
    (∀ m : CppMethod, m.class_membership = none → m.is_destructor = false)
    ∧ (∀ (map : TypeMap) (ms : List CppAndFfiMethod) (r : ProcessFunctionsResult),
        process_functions map ms .Free = .ok r → r.trait_impls = []) := by
  constructor
  · intro m hm
    unfold CppMethod.is_destructor
    rw [hm]
  · intro map ms r h
    unfold process_functions at h
    obtain ⟨acc, hacc, h⟩ := Res.bind_ok h
    obtain ⟨out, hout, h⟩ := Res.bind_ok h
    have hfree := phase1_free_no_trait_impls map ms _ _ hacc
    injection h with h1
    rw [← h1]
    simpa using hfree

/-- Witness for C10 at a concrete free function list. -/
theorem c10_free_scope_no_trait_impls_witness :
    CppMethod.is_destructor
        { name := "g", class_membership := none, operator_flag := false } = false
    ∧ ({ methods := [c4_plain_result], trait_impls := [], overloading_types := [] }
        : ProcessFunctionsResult).trait_impls = [] :=
  ⟨c10_free_scope_no_trait_impls.1 _ rfl,
   c10_free_scope_no_trait_impls.2 [] [c4_plain_method]
     { methods := [c4_plain_result], trait_impls := [], overloading_types := [] } rfl⟩

/-- A stack destructor whose method generation fails (its argument
type has no Rust equivalent in an empty name map). -/
def c1_failing_dtor : CppAndFfiMethod :=
  { cpp_method :=
      { name := "~C", class_membership := some { class_name := "C", kind := .Destructor },
        operator_flag := false },
    allocation_place := .Stack,
    c_signature :=
      { arguments :=
          [{ name := "x",
             argument_type :=
               { original_type := .mk false .Ptr (.Class "X" none),
                 ffi_type := .mk false .Ptr (.Class "X" none),
                 conversion := .NoChange },
             meaning := .Argument 0 }],
        return_type := CppFfiType.void },
    c_name := "c_dtor" }

def c1_type_name : RustName := RustName.mk ["crate_x", "m", "C"]

/-- C1 is false as stated: a stack-allocation-place destructor whose
generation fails (logged as a warning by the source) yields no
ownership-release hook at all, not exactly one. -/
theorem c1_counterexample :
    c1_failing_dtor.cpp_method.is_destructor = true
    ∧ c1_failing_dtor.allocation_place = ReturnValueAllocationPlace.Stack
    ∧ process_functions [] [c1_failing_dtor] (.Impl c1_type_name)
        = .ok { methods := [], trait_impls := [], overloading_types := [] }
    ∧ ¬ (1 = ({ methods := [], trait_impls := [], overloading_types := [] }
        : ProcessFunctionsResult).trait_impls.length) :=
  ⟨rfl, rfl, rfl, by decide⟩

/-- The deleter registration a heap destructor produces. -/
def heap_deleter_impl (tn : RustName) (d : CppAndFfiMethod) : TraitImpl :=
  { target_type := tn, trait_name := .CppDeletable d.c_name, methods := [] }

/-- The Drop impl a stack destructor produces from its generated
method. -/
def stack_drop_impl (tn : RustName) (m : RustMethod) : TraitImpl :=
  { target_type := tn, trait_name := .Drop,
    methods := [{ m with name := RustName.mk ["drop"], scope := .TraitImpl tn .Drop }] }

/-- C1 (amended): for a destructor processed in class scope — heap
place: no direct callable, one CppDeletable registration naming the
external deallocator with an empty method list; stack place: exactly
one Drop hook when method generation succeeds, and none (with a
logged warning) when it fails; any other place: a fatal panic. -/
theorem c1_destructor_policy :
    (∀ (map : TypeMap) (tn : RustName) (d : CppAndFfiMethod),
        d.cpp_method.is_destructor = true →
        d.allocation_place = ReturnValueAllocationPlace.Heap →
        process_functions map [d] (.Impl tn)
          = .ok { methods := [], trait_impls := [heap_deleter_impl tn d],
                  overloading_types := [] })
    ∧ (∀ (map : TypeMap) (tn : RustName) (d : CppAndFfiMethod) (m : RustMethod),
        d.cpp_method.is_destructor = true →
        d.allocation_place = ReturnValueAllocationPlace.Stack →
        generate_function map d (.Impl tn) = .ok m →
        process_functions map [d] (.Impl tn)
          = .ok { methods := [], trait_impls := [stack_drop_impl tn m],
                  overloading_types := [] })
    ∧ (∀ (map : TypeMap) (tn : RustName) (d : CppAndFfiMethod) (e : String),
        d.cpp_method.is_destructor = true →
        d.allocation_place = ReturnValueAllocationPlace.Stack →
        generate_function map d (.Impl tn) = .err e →
        process_functions map [d] (.Impl tn)
          = .ok { methods := [], trait_impls := [], overloading_types := [] })
    ∧ (∀ (map : TypeMap) (tn : RustName) (d : CppAndFfiMethod),
        d.cpp_method.is_destructor = true →
        d.allocation_place = ReturnValueAllocationPlace.NotApplicable →
        process_functions map [d] (.Impl tn)
          = .panic "destructor must have allocation place") := by
  refine ⟨?_, ?_, ?_, ?_⟩
  · intro map tn d hdes hplace
    unfold process_functions process_functions_phase1 phase1_step
    simp only [hdes, hplace, if_true]
    rfl
  · intro map tn d m hdes hplace hgen
    unfold process_functions process_functions_phase1 phase1_step
    simp only [hdes, hplace, hgen, if_true]
    rfl
  · intro map tn d e hdes hplace hgen
    unfold process_functions process_functions_phase1 phase1_step
    simp only [hdes, hplace, hgen, if_true]
    rfl
  · intro map tn d hdes hplace
    unfold process_functions process_functions_phase1 phase1_step
    simp only [hdes, hplace, if_true]
    rfl

/-- A stack destructor whose generation succeeds: the receiver is a
pointer to the mapped class C. -/
def c1_stack_dtor : CppAndFfiMethod :=
  { cpp_method :=
      { name := "~C", class_membership := some { class_name := "C", kind := .Destructor },
        operator_flag := false },
    allocation_place := .Stack,
    c_signature :=
      { arguments :=
          [{ name := "this_ptr",
             argument_type :=
               { original_type := .mk false .Ptr (.Class "C" none),
                 ffi_type := .mk false .Ptr (.Class "C" none),
                 conversion := .NoChange },
             meaning := .This }],
        return_type := CppFfiType.void },
    c_name := "c_del" }

/-- The method generated for `c1_stack_dtor`. -/
def c1_stack_dtor_method : RustMethod :=
  { name := RustName.mk ["delete"],
    scope := .Impl (RustName.mk ["crate_x", "m", "C"]),
    arguments := RustMethodArguments.SingleVariant
      { arguments :=
          [{ ffi_index := some 0,
             argument_type :=
               { cpp_ffi_type := .mk false .Ptr (.Class "C" none),
                 cpp_type := .mk false .Ptr (.Class "C" none),
                 cpp_to_ffi_conversion := .NoChange,
                 rust_ffi_type := .Common (RustName.mk ["crate_x", "m", "C"]) none false .Ptr,
                 rust_api_type :=
                   .Common (RustName.mk ["crate_x", "m", "C"]) none false (.Ref none),
                 rust_api_to_c_conversion := .RefToPtr },
             name := "self" }],
        cpp_method := c1_stack_dtor,
        return_type :=
          { cpp_ffi_type := CppType.void, cpp_type := CppType.void,
            cpp_to_ffi_conversion := .NoChange, rust_ffi_type := .Void,
            rust_api_type := .Void, rust_api_to_c_conversion := .None },
        return_type_ffi_index := none } }

/-- Witness for C1 at concrete destructors for all four cases. -/
theorem c1_destructor_policy_witness :
    process_functions [] [{ c1_failing_dtor with allocation_place := .Heap }]
        (.Impl c1_type_name)
      = .ok { methods := [],
              trait_impls := [heap_deleter_impl c1_type_name
                { c1_failing_dtor with allocation_place := .Heap }],
              overloading_types := [] }
    ∧ process_functions c6_map [c1_stack_dtor] (.Impl (RustName.mk ["crate_x", "m", "C"]))
      = .ok { methods := [],
              trait_impls := [stack_drop_impl (RustName.mk ["crate_x", "m", "C"])
                c1_stack_dtor_method],
              overloading_types := [] }
    ∧ process_functions [] [c1_failing_dtor] (.Impl c1_type_name)
      = .ok { methods := [], trait_impls := [], overloading_types := [] }
    ∧ process_functions [] [{ c1_failing_dtor with allocation_place := .NotApplicable }]
        (.Impl c1_type_name)
      = .panic "destructor must have allocation place" :=
  ⟨c1_destructor_policy.1 [] c1_type_name _ rfl rfl,
   c1_destructor_policy.2.1 c6_map (RustName.mk ["crate_x", "m", "C"]) c1_stack_dtor
     c1_stack_dtor_method rfl rfl rfl,
   c1_destructor_policy.2.2.1 [] c1_type_name c1_failing_dtor
     "Can't generate Rust method for method:\n~C\nType has no Rust equivalent: X\n"
     rfl rfl rfl,
   c1_destructor_policy.2.2.2 [] c1_type_name _ rfl rfl⟩

/-! ## C2: overload resolution -/

/-- The name mutation that `process_bucket` applies when the
receiver-kind caption is in use (lines 881-884). -/
def applyCaption (usec : Bool) (kind : RustMethodSelfArgKind) (n : RustName) : RustName :=
  if usec then RustName.mk (n.parts.dropLast ++ [n.lastName ++ "_" ++ kind.caption]) else n

theorem build_variants_length (first : RustMethod) (sa : Option RustMethodArgument) :
    ∀ (ms : List RustMethod) (vs : List RustMethodArgumentsVariant),
      build_variants first sa ms = .ok vs → vs.length = ms.length := by
  intro ms
  induction ms with
  | nil =>
      intro vs h
      unfold build_variants at h
      injection h with h1
      rw [← h1]
      rfl
  | cons method rest ih =>
      intro vs h
      unfold build_variants at h
      obtain ⟨u1, _, h⟩ := Res.bind_ok h
      obtain ⟨u2, _, h⟩ := Res.bind_ok h
      cases harg : method.arguments with
      | MultipleVariants a b c d =>
          rw [harg] at h
          exact absurd h (by simp)
      | SingleVariant args =>
          rw [harg] at h
          have hrec : ∃ (args2 : RustMethodArgumentsVariant)
              (vs' : List RustMethodArgumentsVariant),
              build_variants first sa rest = .ok vs' ∧ vs = args2 :: vs' := by
            revert h
            cases sa with
            | none =>
                intro h
                obtain ⟨y, hy, h2⟩ := Res.bind_ok h
                obtain ⟨vs', hvs', h3⟩ := Res.bind_ok h2
                injection h3 with h4
                exact ⟨_, vs', hvs', h4.symm⟩
            | some sav =>
                cases hargs : args.arguments with
                | nil =>
                    intro h
                    simp only [hargs, Res.panic_bind] at h
                    exact absurd h (by simp)
                | cons a0 restargs =>
                    intro h
                    simp only [hargs] at h
                    obtain ⟨u, hu, h2⟩ := Res.bind_ok h
                    obtain ⟨y, hy, h3⟩ := Res.bind_ok h2
                    obtain ⟨vs', hvs', h4⟩ := Res.bind_ok h3
                    injection h4 with h5
                    exact ⟨_, vs', hvs', h5.symm⟩
          obtain ⟨args2, vs', hvs', hvseq⟩ := hrec
          rw [hvseq]
          simp [ih vs' hvs']

theorem process_buckets_mem (scope : RustMethodScope) (name : String) (usec : Bool) :
    ∀ (gs : List (RustMethodSelfArgKind × List RustMethod))
      (outs : List (RustMethod × Option RustTypeDeclaration)),
      process_buckets scope name usec gs = .ok outs →
      ∀ out ∈ outs, ∃ g ∈ gs, process_bucket scope name usec g.1 g.2 = .ok out := by
  intro gs
  induction gs with
  | nil =>
      intro outs h out hout
      unfold process_buckets at h
      injection h with h1
      rw [← h1] at hout
      cases hout
  | cons g rest ih =>
      intro outs h out hout
      cases g with
      | mk kind ms =>
          unfold process_buckets at h
          obtain ⟨o1, ho1, h⟩ := Res.bind_ok h
          obtain ⟨os, hos, h⟩ := Res.bind_ok h
          injection h with h1
          rw [← h1] at hout
          rcases List.mem_cons.mp hout with he | he
          · exact ⟨(kind, ms), List.mem_cons_self _ _, he ▸ ho1⟩
          · obtain ⟨g2, hg2, hp2⟩ := ih os hos out he
            exact ⟨g2, List.mem_cons_of_mem _ hg2, hp2⟩

theorem caption_step_ok (usec : Bool) (kind : RustMethodSelfArgKind)
    (p m : RustMethod) (h : caption_step usec kind p = .ok m) :
    m.arguments = p.arguments ∧ m.scope = p.scope
      ∧ m.name = applyCaption usec kind p.name := by
  unfold caption_step at h
  cases usec with
  | false =>
      simp only [Bool.false_eq_true, if_false] at h
      injection h with h2
      rw [← h2]
      exact ⟨rfl, rfl, by simp [applyCaption]⟩
  | true =>
      simp only [if_true] at h
      revert h
      cases hlast : p.name.parts.getLast? with
      | none => intro h; exact absurd h (by simp)
      | some last =>
          intro h
          injection h with h2
          rw [← h2]
          refine ⟨rfl, rfl, ?_⟩
          simp only [applyCaption, if_true]
          have hl : p.name.lastName = last := by
            unfold RustName.lastName
            rw [List.getLastD_eq_getLast?, hlast]
            rfl
          rw [hl]

/-- C2: overload resolution.  Part one: a name group is processed
bucket-by-bucket, with the receiver-kind caption enabled exactly when
more than one receiver-kind bucket exists for the name.  Part two:
within one bucket, more than one surviving argument-shape variant
yields exactly one dispatch trait (named with the "Params" suffix, one
trait implementation per surviving variant) plus a single forwarding
multi-shape callable, while exactly one surviving variant is emitted
directly as a normal callable; the caption suffix is appended to the
emitted name exactly when the caption flag is set. -/
theorem c2_overload_resolution :
    (∀ (scope : RustMethodScope) (name : String) (ms : List RustMethod)
        (r : List RustMethod × List RustTypeDeclaration),
        process_name_group scope name ms = .ok r →
        ∃ outs,
          process_buckets scope name
            (decide ((group_by_self_kind (ms.filter
              (fun m => m.name.lastName == name))).length > 1))
            (group_by_self_kind (ms.filter (fun m => m.name.lastName == name)))
            = .ok outs
          ∧ r = (outs.map Prod.fst, outs.filterMap Prod.snd)
          ∧ ∀ out ∈ outs,
              ∃ g ∈ group_by_self_kind (ms.filter (fun m => m.name.lastName == name)),
                process_bucket scope name
                  (decide ((group_by_self_kind (ms.filter
                    (fun m => m.name.lastName == name))).length > 1)) g.1 g.2 = .ok out)
    ∧ (∀ (scope : RustMethodScope) (name : String) (usec : Bool)
        (kind : RustMethodSelfArgKind) (ms : List RustMethod)
        (m : RustMethod) (o : Option RustTypeDeclaration),
        process_bucket scope name usec kind ms = .ok (m, o) →
        ∃ fm, filter_duplicates ms = .ok fm ∧ fm ≠ []
          ∧ (fm.length > 1 →
              ∃ first rest vs t, fm = first :: rest
                ∧ o = some t
                ∧ (∃ sa lt, t.kind = RustTypeDeclarationKind.MethodParametersTrait sa vs lt
                    ∧ m.arguments = RustMethodArguments.MultipleVariants t.name lt sa "params")
                ∧ vs.length = fm.length
                ∧ (∃ pre, t.name = pre ++ "Params")
                ∧ m.scope = first.scope
                ∧ m.name = applyCaption usec kind first.name)
          ∧ (fm.length = 1 →
              ∃ m0, fm = [m0] ∧ o = none ∧ m.arguments = m0.arguments
                ∧ m.scope = m0.scope
                ∧ m.name = applyCaption usec kind m0.name)) := by
  constructor
  · intro scope name ms r h
    unfold process_name_group at h
    obtain ⟨u0, hu0, h⟩ := Res.bind_ok h
    obtain ⟨outs, houts, h⟩ := Res.bind_ok h
    injection h with h1
    exact ⟨outs, houts, h1.symm, process_buckets_mem scope name _ _ outs houts⟩
  · intro scope name usec kind ms m o h
    unfold process_bucket at h
    obtain ⟨u0, hu0, h⟩ := Res.bind_ok h
    obtain ⟨fm, hfm, h⟩ := Res.bind_ok h
    obtain ⟨pair, hpair, h⟩ := Res.bind_ok h
    obtain ⟨method0, hcap, h⟩ := Res.bind_ok h
    injection h with h1
    have hm : method0 = m := congrArg Prod.fst h1
    have ho : pair.2 = o := congrArg Prod.snd h1
    have hcapfacts := caption_step_ok usec kind pair.1 method0 hcap
    refine ⟨fm, hfm, ?_⟩
    cases fm with
    | nil =>
        simp only [bucket_pair_step] at hpair
        exact absurd hpair (by simp)
    | cons first rest =>
        simp only [bucket_pair_step] at hpair
        by_cases hlen : (first :: rest).length > 1
        · rw [if_pos hlen] at hpair
          unfold bucket_multi_step at hpair
          revert hpair
          cases hfa : first.arguments with
          | MultipleVariants a b c d =>
              intro hpair
              exact absurd hpair (by simp)
          | SingleVariant fargs =>
              intro hpair
              obtain ⟨vs, hvs, hpair⟩ := Res.bind_ok hpair
              injection hpair with h3
              subst h3
              refine ⟨by simp, ?_, ?_⟩
              · intro _
                refine ⟨first, rest, vs, _, rfl, ho.symm, ⟨_, _, rfl, ?_⟩, ?_, ?_, ?_, ?_⟩
                · rw [← hm, hcapfacts.1]
                · exact build_variants_length first _ _ vs hvs
                · cases scope with
                  | Impl tn =>
                      exact ⟨tn.lastName ++ toClassCaseS (if usec = true then
                        name ++ kind.caption else name), (String.append_assoc _ _ _).symm⟩
                  | TraitImpl tn trn =>
                      exact ⟨toClassCaseS (if usec = true then
                        name ++ kind.caption else name), rfl⟩
                  | Free =>
                      exact ⟨toClassCaseS (if usec = true then
                        name ++ kind.caption else name), rfl⟩
                · rw [← hm, hcapfacts.2.1]
                · rw [← hm, hcapfacts.2.2]
              · intro habs
                rw [habs] at hlen
                exact absurd hlen (by simp)
        · rw [if_neg hlen] at hpair
          revert hpair
          cases hlast : (first :: rest).getLast? with
          | none =>
              intro hpair
              exact absurd hpair (by simp)
          | some m0 =>
              intro hpair
              injection hpair with h3
              subst h3
              refine ⟨by simp, ?_, ?_⟩
              · intro habs
                exact absurd habs hlen
              · intro hone
                have hfm1 : first :: rest = [m0] := by
                  cases rest with
                  | nil =>
                      have hx : first = m0 := by
                        have h4 := hlast
                        simp [List.getLast?] at h4
                        rw [h4]
                      rw [hx]
                  | cons y ys => simp at hone
                refine ⟨m0, hfm1, ho.symm, ?_, ?_, ?_⟩
                · rw [← hm, hcapfacts.1]
                · rw [← hm, hcapfacts.2.1]
                · rw [← hm, hcapfacts.2.2]

/-- A void complete type for witness methods. -/
def c2_void_ct : CompleteType :=
  { cpp_ffi_type := CppType.void, cpp_type := CppType.void,
    cpp_to_ffi_conversion := .NoChange, rust_ffi_type := .Void,
    rust_api_type := .Void, rust_api_to_c_conversion := .None }

/-- A free function of no arguments used as an overload witness. -/
def c2_cpp_method : CppAndFfiMethod :=
  { cpp_method := { name := "m", class_membership := none, operator_flag := false },
    allocation_place := .NotApplicable,
    c_signature := { arguments := [], return_type := CppFfiType.void },
    c_name := "c_m" }

def c2_arg_x : RustMethodArgument :=
  { argument_type := c2_void_ct, name := "x", ffi_index := some 0 }

def c2_v1 : RustMethodArgumentsVariant :=
  { arguments := [], cpp_method := c2_cpp_method,
    return_type := c2_void_ct, return_type_ffi_index := none }

def c2_v2 : RustMethodArgumentsVariant :=
  { arguments := [c2_arg_x], cpp_method := c2_cpp_method,
    return_type := c2_void_ct, return_type_ffi_index := none }

def c2_m1 : RustMethod :=
  { name := RustName.mk ["m"], scope := .Free, arguments := .SingleVariant c2_v1 }

def c2_m2 : RustMethod :=
  { name := RustName.mk ["m"], scope := .Free, arguments := .SingleVariant c2_v2 }

/-- Two same-named, same-receiver-kind free methods with different
argument shapes. -/
def c2_group : List RustMethod := [c2_m1, c2_m2]

/-- The forwarding multi-shape callable the witness group yields. -/
def c2_fwd : RustMethod :=
  { name := RustName.mk ["m"], scope := .Free,
    arguments := .MultipleVariants "MParams" none [] "params" }

/-- The dispatch trait the witness group yields. -/
def c2_trait : RustTypeDeclaration :=
  { name := "MParams", kind := .MethodParametersTrait [] [c2_v1, c2_v2] none }

def c2_out : List RustMethod × List RustTypeDeclaration := ([c2_fwd], [c2_trait])

/-- Witness for C2 at a concrete two-shape overload set. -/
theorem c2_overload_resolution_witness :
    (process_name_group RustMethodScope.Free "m" c2_group = .ok c2_out
      ∧ ∃ outs,
          process_buckets RustMethodScope.Free "m"
            (decide ((group_by_self_kind (c2_group.filter
              (fun m => m.name.lastName == "m"))).length > 1))
            (group_by_self_kind (c2_group.filter (fun m => m.name.lastName == "m")))
            = .ok outs
          ∧ c2_out = (outs.map Prod.fst, outs.filterMap Prod.snd)
          ∧ ∀ out ∈ outs,
              ∃ g ∈ group_by_self_kind (c2_group.filter (fun m => m.name.lastName == "m")),
                process_bucket RustMethodScope.Free "m"
                  (decide ((group_by_self_kind (c2_group.filter
                    (fun m => m.name.lastName == "m"))).length > 1)) g.1 g.2 = .ok out)
    ∧ (process_bucket RustMethodScope.Free "m" false RustMethodSelfArgKind.Static c2_group
        = .ok (c2_fwd, some c2_trait)
      ∧ ∃ fm, filter_duplicates c2_group = .ok fm ∧ fm ≠ []
          ∧ (fm.length > 1 →
              ∃ first rest vs t, fm = first :: rest
                ∧ some c2_trait = some t
                ∧ (∃ sa lt, t.kind = RustTypeDeclarationKind.MethodParametersTrait sa vs lt
                    ∧ c2_fwd.arguments = RustMethodArguments.MultipleVariants t.name lt sa "params")
                ∧ vs.length = fm.length
                ∧ (∃ pre, t.name = pre ++ "Params")
                ∧ c2_fwd.scope = first.scope
                ∧ c2_fwd.name = applyCaption false RustMethodSelfArgKind.Static first.name)
          ∧ (fm.length = 1 →
              ∃ m0, fm = [m0] ∧ some c2_trait = none ∧ c2_fwd.arguments = m0.arguments
                ∧ c2_fwd.scope = m0.scope
                ∧ c2_fwd.name = applyCaption false RustMethodSelfArgKind.Static m0.name)) :=
  ⟨⟨rfl, c2_overload_resolution.1 RustMethodScope.Free "m" c2_group c2_out rfl⟩,
   ⟨rfl, c2_overload_resolution.2 RustMethodScope.Free "m" false RustMethodSelfArgKind.Static
      c2_group c2_fwd (some c2_trait) rfl⟩⟩

/-! ## C5: enum deduplication and padding (process_type, lines 376-474) -/

/-- The enum value-to-variant map build loop (lines 383-399),
modelled as an insertion-ordered association list: one entry per
numeric value, first-seen variant kept (a duplicate only logs a
warning), the kept name converted to class case. -/
def enum_dedup_go (acc : List (Int × EnumValue)) : List EnumValue → List (Int × EnumValue)
  | [] => acc
  | v :: rest =>
      if (List.lookup v.value acc).isSome then enum_dedup_go acc rest
      else enum_dedup_go
        (acc ++ [(v.value, { name := toClassCaseS v.name, value := v.value })]) rest

def enum_dedup (values : List EnumValue) : List (Int × EnumValue) :=
  enum_dedup_go [] values

/-- The `_Invalid` injection (lines 400-411): when exactly one
distinct value survives, add a synthetic variant with value 1 if the
sole value is 0 and 0 otherwise. -/
def enum_padded (values : List EnumValue) : List (Int × EnumValue) :=
  if (enum_dedup values).length = 1 then
    enum_dedup values
      ++ [((if (List.lookup 0 (enum_dedup values)).isSome then 1 else 0),
           { name := "_Invalid",
             value := if (List.lookup 0 (enum_dedup values)).isSome then 1 else 0 })]
  else enum_dedup values

/-- Insertion sort by numeric value (line 415; keys are distinct, so
any sort agrees with the source's `sort_by`). -/
def insert_by_value (v : EnumValue) : List EnumValue → List EnumValue
  | [] => [v]
  | x :: xs => if v.value < x.value then v :: x :: xs else x :: insert_by_value v xs

def sort_by_value : List EnumValue → List EnumValue
  | [] => []
  | x :: xs => insert_by_value x (sort_by_value xs)

/-- The full enum-values pipeline of the enum branch
(lines 382-415). -/
def process_enum_values (values : List EnumValue) : List EnumValue :=
  sort_by_value ((enum_padded values).map Prod.snd)

/-- The QFlags flaggability check (lines 416-429). -/
def is_flaggable_check (cpp_data : CppData) (name : String) : Bool :=
  match List.lookup "QFlags" cpp_data.template_instantiations with
  | some insts => insts.any (fun x =>
      x.length == 1 && (x.head? == some (CppType.mk false .None (.Enum name))))
  | none => false

/-- Embedding of rust_generator.rs struct ProcessTypeResult
(lines 180-184). -/
structure ProcessTypeResult where
  main_type : RustTypeDeclaration
  overloading_types : List RustTypeDeclaration

/-- Embedding of rust_generator.rs `RustGenerator::process_type`
(lines 376-474): look up the mapped name (unwrap panics if absent),
then emit an enum wrapper with deduplicated, padded, sorted values,
or a struct wrapper with the class's processed methods. -/
def process_type (map : TypeMap) (cpp_data : CppData) (type_info : CppTypeData)
    (c_header : CppFfiHeaderData) : Res ProcessTypeResult := do
  let rust_name ← runwrap (List.lookup type_info.name map) "unwrap on None"
  match type_info.kind with
  | .Enum values =>
      pure { main_type :=
               { name := rust_name.lastName,
                 kind := RustTypeDeclarationKind.CppTypeWrapper
                   (RustTypeWrapperKind.Enum (process_enum_values values)
                     (is_flaggable_check cpp_data type_info.name))
                   type_info.name none [] [] },
             overloading_types := [] }
  | .Class size => do
      let fr ← process_functions map
        (c_header.methods.filter (fun x => x.cpp_method.className == some type_info.name))
        (.Impl rust_name)
      let sz ← runwrap size "unwrap on None"
      pure { main_type :=
               { name := rust_name.lastName,
                 kind := RustTypeDeclarationKind.CppTypeWrapper
                   (RustTypeWrapperKind.Struct sz) type_info.name none
                   fr.methods fr.trait_impls },
             overloading_types := fr.overloading_types }

theorem enum_dedup_go_lookup (k : Int) :
    ∀ (vals : List EnumValue) (acc : List (Int × EnumValue)),
      List.lookup k (enum_dedup_go acc vals) =
        match List.lookup k acc with
        | some v => some v
        | none => (vals.find? (fun v => v.value == k)).map
            (fun v => { name := toClassCaseS v.name, value := v.value }) := by
  intro vals
  induction vals with
  | nil =>
      intro acc
      unfold enum_dedup_go
      cases h : List.lookup k acc <;> simp [h]
  | cons v rest ih =>
      intro acc
      unfold enum_dedup_go
      by_cases hc : (List.lookup v.value acc).isSome = true
      · rw [if_pos hc, ih]
        cases hacc : List.lookup k acc with
        | some w => rfl
        | none =>
            have hne : (v.value == k) = false := by
              rw [beq_eq_false_iff_ne]
              intro he
              rw [he, hacc] at hc
              exact absurd hc (by simp)
            simp [List.find?, hne]
      · rw [if_neg hc, ih, lookup_append]
        cases hacc : List.lookup k acc with
        | some w => rfl
        | none =>
            by_cases hv : v.value = k
            · subst hv
              simp [List.lookup, List.find?]
            · have h1 : (k == v.value) = false := by
                rw [beq_eq_false_iff_ne]
                exact fun he => hv he.symm
              have h2 : (v.value == k) = false := by
                rw [beq_eq_false_iff_ne]
                exact hv
              simp [List.lookup, List.find?, h1, h2]

theorem enum_dedup_go_value : ∀ (vals : List EnumValue) (acc : List (Int × EnumValue)),
    (∀ p ∈ acc, p.2.value = p.1) →
    ∀ p ∈ enum_dedup_go acc vals, p.2.value = p.1 := by
  intro vals
  induction vals with
  | nil =>
      intro acc hacc
      unfold enum_dedup_go
      exact hacc
  | cons v rest ih =>
      intro acc hacc
      unfold enum_dedup_go
      by_cases hc : (List.lookup v.value acc).isSome = true
      · rw [if_pos hc]
        exact ih acc hacc
      · rw [if_neg hc]
        apply ih
        intro p hp
        rcases List.mem_append.mp hp with h1 | h2
        · exact hacc p h1
        · simp only [List.mem_singleton] at h2
          rw [h2]

theorem insert_by_value_length (v : EnumValue) :
    ∀ l, (insert_by_value v l).length = l.length + 1 := by
  intro l
  induction l with
  | nil => rfl
  | cons x xs ih =>
      unfold insert_by_value
      split
      · simp
      · simp [ih]

theorem sort_by_value_length : ∀ l, (sort_by_value l).length = l.length := by
  intro l
  induction l with
  | nil => rfl
  | cons x xs ih =>
      unfold sort_by_value
      rw [insert_by_value_length, ih]
      rfl

theorem enum_dedup_go_length : ∀ (vals : List EnumValue) (acc : List (Int × EnumValue)),
    acc.length ≤ (enum_dedup_go acc vals).length := by
  intro vals
  induction vals with
  | nil =>
      intro acc
      unfold enum_dedup_go
      exact le_refl _
  | cons v rest ih =>
      intro acc
      unfold enum_dedup_go
      by_cases hc : (List.lookup v.value acc).isSome = true
      · rw [if_pos hc]
        exact ih acc
      · rw [if_neg hc]
        calc acc.length ≤ (acc ++ [((v.value,
              { name := toClassCaseS v.name, value := v.value }) : Int × EnumValue)]).length := by
              simp
          _ ≤ _ := ih _

theorem enum_dedup_cons_ge_one (v : EnumValue) (rest : List EnumValue) :
    1 ≤ (enum_dedup (v :: rest)).length := by
  unfold enum_dedup enum_dedup_go
  simp only [List.lookup_nil, Option.isSome_none, Bool.false_eq_true, if_false,
    List.nil_append]
  have h := enum_dedup_go_length rest
    [(v.value, { name := toClassCaseS v.name, value := v.value })]
  simpa using h

/-- The enum wrapper declaration the enum branch of `process_type`
emits. -/
def c5_enum_decl (rn : RustName) (cpp_data : CppData) (tname : String)
    (vals : List EnumValue) : RustTypeDeclaration :=
  { name := rn.lastName,
    kind := RustTypeDeclarationKind.CppTypeWrapper
      (RustTypeWrapperKind.Enum (process_enum_values vals)
        (is_flaggable_check cpp_data tname))
      tname none [] [] }

/-- C5: enum deduplication and padding.  First: the surviving variant
for each numeric value is the first-seen one (class-cased name).
Second: when exactly one distinct value survives, exactly one
synthetic `_Invalid` variant is injected, with value 1 if the sole
real value is 0 and value 0 otherwise.  Third: when more than one
value survives, nothing is injected.  Fourth: no nonempty input enum
is ever emitted with a single value.  Fifth: the enum branch of
`process_type` emits exactly this processed value list. -/
theorem c5_enum_dedup_padding :
    (∀ (vals : List EnumValue) (k : Int),
        List.lookup k (enum_dedup vals)
          = (vals.find? (fun v => v.value == k)).map
              (fun v => { name := toClassCaseS v.name, value := v.value }))
    ∧ (∀ (vals : List EnumValue) (k : Int) (v0 : EnumValue),
        enum_dedup vals = [(k, v0)] →
        process_enum_values vals
          = sort_by_value [v0,
              { name := "_Invalid", value := if v0.value = 0 then 1 else 0 }])
    ∧ (∀ vals : List EnumValue, (enum_dedup vals).length ≠ 1 →
        process_enum_values vals = sort_by_value ((enum_dedup vals).map Prod.snd))
    ∧ (∀ vals : List EnumValue, vals ≠ [] → (process_enum_values vals).length ≠ 1)
    ∧ (∀ (map : TypeMap) (cpp_data : CppData) (ti : CppTypeData)
        (ch : CppFfiHeaderData) (vals : List EnumValue) (r : ProcessTypeResult),
        ti.kind = CppTypeKind.Enum vals →
        process_type map cpp_data ti ch = .ok r →
        ∃ rn, List.lookup ti.name map = some rn
          ∧ r.main_type = c5_enum_decl rn cpp_data ti.name vals
          ∧ r.overloading_types = []) := by
  refine ⟨?_, ?_, ?_, ?_, ?_⟩
  · intro vals k
    have h := enum_dedup_go_lookup k vals []
    simpa [enum_dedup] using h
  · intro vals k v0 hd
    have hkv : v0.value = k := by
      have := enum_dedup_go_value vals [] (by intro p hp; cases hp) (k, v0)
      apply this
      rw [show enum_dedup_go [] vals = enum_dedup vals from rfl, hd]
      exact List.mem_singleton.mpr rfl
    have hdummy : (if (List.lookup (0 : Int) [(k, v0)]).isSome = true then (1 : Int) else 0)
        = if v0.value = 0 then (1 : Int) else 0 := by
      have hlk : (List.lookup (0 : Int) [(k, v0)]).isSome = ((0 : Int) == k) := by
        cases hbk : ((0 : Int) == k) <;> simp [List.lookup, hbk]
      rw [hlk]
      by_cases hz : v0.value = 0
      · rw [if_pos hz]
        have hzk : (0 : Int) = k := by rw [← hz, hkv]
        rw [if_pos (by simp only [beq_iff_eq]; exact hzk)]
      · rw [if_neg hz]
        have hzk : ¬ ((0 : Int) = k) := fun he => hz (by rw [hkv, ← he])
        rw [if_neg (by simp only [beq_iff_eq]; exact hzk)]
    unfold process_enum_values enum_padded
    rw [hd]
    rw [if_pos (by rfl : ([(k, v0)] : List (Int × EnumValue)).length = 1)]
    rw [hdummy]
    rfl
  · intro vals h
    unfold process_enum_values enum_padded
    rw [if_neg h]
  · intro vals hne
    cases vals with
    | nil => exact absurd rfl hne
    | cons v rest =>
        have h1 := enum_dedup_cons_ge_one v rest
        unfold process_enum_values enum_padded
        by_cases hl : (enum_dedup (v :: rest)).length = 1
        · rw [if_pos hl, sort_by_value_length, List.length_map, List.length_append, hl]
          simp
        · rw [if_neg hl, sort_by_value_length, List.length_map]
          exact hl
  · intro map cpp_data ti ch vals r hkind h
    unfold process_type at h
    obtain ⟨rn, hrn, h⟩ := Res.bind_ok h
    rw [hkind] at h
    have hlook : List.lookup ti.name map = some rn := by
      unfold runwrap at hrn
      revert hrn
      cases hl : List.lookup ti.name map with
      | none => intro hrn; exact absurd hrn (by simp)
      | some x =>
          intro hrn
          injection hrn with hx
          rw [hx]
    refine ⟨rn, hlook, ?_, ?_⟩
    · injection h with h1
      rw [← h1]
      rfl
    · injection h with h1
      rw [← h1]

/-- An enum whose two variants share one value. -/
def c5_vals : List EnumValue :=
  [{ name := "first", value := 0 }, { name := "second", value := 0 }]

/-- An enum with two distinct values. -/
def c5_vals2 : List EnumValue :=
  [{ name := "a", value := 0 }, { name := "b", value := 1 }]

def c5_ti : CppTypeData := { name := "E", include_file := "e.h", kind := .Enum c5_vals }

def c5_map : TypeMap := [("E", RustName.mk ["crate_x", "e", "E"])]

def c5_data : CppData := { types := [c5_ti], template_instantiations := [] }

def c5_header : CppFfiHeaderData := { include_file := "e.h", methods := [] }

def c5_out_result : ProcessTypeResult :=
  { main_type := c5_enum_decl (RustName.mk ["crate_x", "e", "E"]) c5_data "E" c5_vals,
    overloading_types := [] }

/-- Witness for C5 at concrete enums. -/
theorem c5_enum_dedup_padding_witness :
    (enum_dedup c5_vals = [(0, { name := "First", value := 0 })]
      ∧ process_enum_values c5_vals
          = sort_by_value [{ name := "First", value := 0 },
              { name := "_Invalid",
                value := if ({ name := "First", value := 0 } : EnumValue).value = 0
                  then 1 else 0 }])
    ∧ ((enum_dedup c5_vals2).length ≠ 1
      ∧ process_enum_values c5_vals2 = sort_by_value ((enum_dedup c5_vals2).map Prod.snd))
    ∧ (c5_vals ≠ [] ∧ (process_enum_values c5_vals).length ≠ 1)
    ∧ (c5_ti.kind = CppTypeKind.Enum c5_vals
      ∧ process_type c5_map c5_data c5_ti c5_header = .ok c5_out_result
      ∧ ∃ rn, List.lookup c5_ti.name c5_map = some rn
          ∧ c5_out_result.main_type = c5_enum_decl rn c5_data c5_ti.name c5_vals
          ∧ c5_out_result.overloading_types = []) :=
  ⟨⟨rfl, c5_enum_dedup_padding.2.1 c5_vals 0 { name := "First", value := 0 } rfl⟩,
   ⟨by decide, c5_enum_dedup_padding.2.2.1 c5_vals2 (by decide)⟩,
   ⟨by decide, c5_enum_dedup_padding.2.2.2.1 c5_vals (by decide)⟩,
   ⟨rfl, rfl, c5_enum_dedup_padding.2.2.2.2 c5_map c5_data c5_ti c5_header c5_vals
      c5_out_result rfl rfl⟩⟩

/-! ## C3: module generation (generate_module, lines 476-562) -/

/-- Embedding of the `check_name` closure (lines 499-519): decide
whether a mapped name belongs directly to this module, collecting
direct submodule names as a side effect.  A mapped path shorter than
the module path reaches the length subtraction and prefix slice with
an out-of-range operand, a panic. -/
def check_name (map : TypeMap) (module_name : RustName) (s : List String)
    (name : String) : Res (Bool × List String) :=
  match List.lookup name map with
  | some rust_name =>
      if rust_name.parts.length < module_name.parts.length then
        Res.panic "attempt to subtract with overflow"
      else
        if rust_name.parts.length - module_name.parts.length > 0
            ∧ rust_name.parts.take module_name.parts.length ≠ module_name.parts then
          pure (false, s)
        else
          let s1 :=
            if rust_name.parts.length - module_name.parts.length = 2 then
              match rust_name.parts.get? module_name.parts.length with
              | some d => if s.contains d then s else s ++ [d]
              | none => s
            else s
          if rust_name.parts.length - module_name.parts.length = 1 then pure (true, s1)
          else pure (false, s1)
  | none => pure (false, s)

/-- The type-collection loop of `generate_module` (lines 520-526). -/
def gm_types_loop (map : TypeMap) (cpp_data : CppData) (ch : CppFfiHeaderData)
    (module_name : RustName) :
    List CppTypeData → List String → List RustTypeDeclaration →
    List RustTypeDeclaration →
    Res (List String × List RustTypeDeclaration × List RustTypeDeclaration)
  | [], s, ts, ovs => pure (s, ts, ovs)
  | td :: rest, s, ts, ovs => do
      let bs ← check_name map module_name s td.name
      if bs.1 then do
        let r ← process_type map cpp_data td ch
        gm_types_loop map cpp_data ch module_name rest bs.2 (ts ++ [r.main_type])
          (ovs ++ r.overloading_types)
      else
        gm_types_loop map cpp_data ch module_name rest bs.2 ts ovs

/-- The free-function collection loop of `generate_module`
(lines 527-533). -/
def gm_methods_loop (map : TypeMap) (module_name : RustName) :
    List CppAndFfiMethod → List String → List CppAndFfiMethod →
    Res (List String × List CppAndFfiMethod)
  | [], s, good => pure (s, good)
  | m :: rest, s, good =>
      if m.cpp_method.class_membership.isNone then do
        let bs ← check_name map module_name s m.cpp_method.name
        if bs.1 then gm_methods_loop map module_name rest bs.2 (good ++ [m])
        else gm_methods_loop map module_name rest bs.2 good
      else gm_methods_loop map module_name rest s good

/-- Embedding of rust_generator.rs `RustGenerator::generate_module`
(lines 488-562), recursion made explicit with a fuel parameter (the
source recurses on submodule names; fuel exhaustion is a model
artifact reported as an error, never reached for fuel larger than the
mapped path depth).  The source function always wraps its result in
`Some`; the blacklist in `generate_modules_from_header` is the only
producer of `None`. -/
def generate_module (map : TypeMap) (cpp_data : CppData) :
    Nat → CppFfiHeaderData → RustName → Res (Option RustModule)
  | 0, _, _ => Res.err "recursion fuel exhausted (model artifact)"
  | Nat.succ fuel, ch, module_name => do
      let r1 ← gm_types_loop map cpp_data ch module_name cpp_data.types [] [] []
      let r2 ← gm_methods_loop map module_name ch.methods r1.1 []
      let submodules0 ← r2.1.foldlM
        (fun (acc : List RustModule) n => do
          let r ← generate_module map cpp_data fuel ch (RustName.mk (module_name.parts ++ [n]))
          match r with
          | some m => pure (acc ++ [m])
          | none => pure acc) []
      let fr ← process_functions map r2.2 RustMethodScope.Free
      let _ ← rassert fr.trait_impls.isEmpty "assertion failed: trait impls empty"
      let rust_overloading_types := r1.2.2 ++ fr.overloading_types
      let submodules :=
        if rust_overloading_types.length > 0 then
          submodules0 ++ [{ name := "overloading", types := rust_overloading_types,
                            functions := [], submodules := [] }]
        else submodules0
      pure (some { name := module_name.lastName, types := r1.2.1,
                   functions := fr.methods, submodules := submodules })

/-- Embedding of rust_generator.rs
`RustGenerator::generate_modules_from_header` (lines 476-485): a
blacklisted module name short-circuits to `None`; otherwise the
module is generated under `crate_name::module_name`. -/
def generate_modules_from_header (config : RustGeneratorConfig) (map : TypeMap)
    (cpp_data : CppData) (fuel : Nat) (ch : CppFfiHeaderData) : Res (Option RustModule) :=
  if config.module_blacklist.contains
      (include_file_to_module_name ch.include_file config.remove_qt_prefix_flag) then
    pure none
  else
    generate_module map cpp_data fuel ch
      (RustName.mk [config.crate_name,
        include_file_to_module_name ch.include_file config.remove_qt_prefix_flag])

/-- A non-blacklisted header that yields no mapped entities. -/
def c3_config : RustGeneratorConfig :=
  { crate_name := "crate_x", module_blacklist := [], remove_qt_prefix_flag := false }

def c3_header : CppFfiHeaderData := { include_file := "myfile.h", methods := [] }

def c3_cpp_data : CppData := { types := [], template_instantiations := [] }

/-- C3 counterexample: the spec says a non-blacklisted header that
yields no mapped entities produces no module (is skipped).  In the
code, `generate_module` unconditionally wraps its result in `Some`
(line 561); a non-blacklisted header with no types and no free
functions yields an empty module, not a skip. -/
theorem c3_counterexample :
    c3_config.module_blacklist.contains
        (include_file_to_module_name c3_header.include_file c3_config.remove_qt_prefix_flag)
      = false
    ∧ generate_modules_from_header c3_config [] c3_cpp_data 1 c3_header
      = .ok (some { name := "myfile", types := [], functions := [], submodules := [] }) :=
  ⟨rfl, rfl⟩

/-- C3 (amended): a blacklisted header produces no module; for every
other header, module generation never skips — any successful result
of `generate_module`, and hence of `generate_modules_from_header` on
a non-blacklisted header, is `some` module, even when the header
yields no mapped entities. -/
theorem c3_module_generation :
    (∀ (config : RustGeneratorConfig) (map : TypeMap) (cpp_data : CppData)
        (fuel : Nat) (ch : CppFfiHeaderData),
        config.module_blacklist.contains
          (include_file_to_module_name ch.include_file config.remove_qt_prefix_flag) = true →
        generate_modules_from_header config map cpp_data fuel ch = .ok none)
    ∧ (∀ (map : TypeMap) (cpp_data : CppData) (fuel : Nat) (ch : CppFfiHeaderData)
        (mn : RustName) (o : Option RustModule),
        generate_module map cpp_data fuel ch mn = .ok o →
        ∃ mod, o = some mod)
    ∧ (∀ (config : RustGeneratorConfig) (map : TypeMap) (cpp_data : CppData)
        (fuel : Nat) (ch : CppFfiHeaderData) (o : Option RustModule),
        config.module_blacklist.contains
          (include_file_to_module_name ch.include_file config.remove_qt_prefix_flag) = false →
        generate_modules_from_header config map cpp_data fuel ch = .ok o →
        ∃ mod, o = some mod) := by
  have hb : ∀ (map : TypeMap) (cpp_data : CppData) (fuel : Nat) (ch : CppFfiHeaderData)
      (mn : RustName) (o : Option RustModule),
      generate_module map cpp_data fuel ch mn = .ok o → ∃ mod, o = some mod := by
    intro map cpp_data fuel ch mn o h
    cases fuel with
    | zero =>
        unfold generate_module at h
        exact absurd h (by simp)
    | succ f =>
        unfold generate_module at h
        obtain ⟨r1, h1, h⟩ := Res.bind_ok h
        obtain ⟨r2, h2, h⟩ := Res.bind_ok h
        obtain ⟨sub0, h3, h⟩ := Res.bind_ok h
        obtain ⟨fr, h4, h⟩ := Res.bind_ok h
        obtain ⟨u, h5, h⟩ := Res.bind_ok h
        injection h with h6
        exact ⟨_, h6.symm⟩
  refine ⟨?_, hb, ?_⟩
  · intro config map cpp_data fuel ch hbl
    unfold generate_modules_from_header
    rw [if_pos hbl]
    rfl
  · intro config map cpp_data fuel ch o hbl h
    unfold generate_modules_from_header at h
    rw [if_neg (by rw [hbl]; exact Bool.false_ne_true)] at h
    exact hb _ _ _ _ _ _ h

/-- The same configuration with the header's module blacklisted. -/
def c3_black_config : RustGeneratorConfig :=
  { c3_config with module_blacklist := ["myfile"] }

/-- The empty module the no-entity header yields. -/
def c3_empty_module : RustModule :=
  { name := "myfile", types := [], functions := [], submodules := [] }

/-- Witness for C3 at a blacklisted and a non-blacklisted header. -/
theorem c3_module_generation_witness :
    (c3_black_config.module_blacklist.contains
        (include_file_to_module_name c3_header.include_file
          c3_black_config.remove_qt_prefix_flag)
      = true
      ∧ generate_modules_from_header c3_black_config
          [] c3_cpp_data 1 c3_header = .ok none)
    ∧ (generate_module [] c3_cpp_data 1 c3_header (RustName.mk ["crate_x", "myfile"])
        = .ok (some c3_empty_module)
      ∧ ∃ mod, (some c3_empty_module : Option RustModule) = some mod)
    ∧ (c3_config.module_blacklist.contains
        (include_file_to_module_name c3_header.include_file c3_config.remove_qt_prefix_flag)
      = false
      ∧ generate_modules_from_header c3_config [] c3_cpp_data 1 c3_header
        = .ok (some c3_empty_module)
      ∧ ∃ mod, (some c3_empty_module : Option RustModule) = some mod) :=
  ⟨⟨rfl, c3_module_generation.1 c3_black_config
      [] c3_cpp_data 1 c3_header rfl⟩,
   ⟨rfl, c3_module_generation.2.1 [] c3_cpp_data 1 c3_header
      (RustName.mk ["crate_x", "myfile"]) _ rfl⟩,
   ⟨rfl, rfl, c3_module_generation.2.2 c3_config [] c3_cpp_data 1 c3_header _ rfl rfl⟩⟩
